import Mathlib

/-!
# nerdctl: layer-diff computation, change-directive parsing, commit orchestration
and snapshot label update

A shallow embedding of

* `pkg/imgutil/commit/diff.go`  (`clearCancel`, `Background`, `Do`, `CreateDiff`)
* `pkg/cmd/container/commit.go` (`Commit`, `parseChanges`)
* `pkg/cmd/snapshot/update.go`  (`Update`)

Go strings are byte sequences, so they are modelled as lists of byte values.
External collaborators (the snapshot service, the diff comparer, the commit
procedure, the output stream) are interface values in the source; here they are
records of state-passing functions over an arbitrary world state `σ`, and every
call made through such an interface is appended to a trace of events.
-/

namespace Nerdctl

/-! ## Go strings -/

/-- A Go string: an immutable sequence of bytes (values below 256). -/
abbrev GoString := List Nat

/-- Go's `utf8.AppendRune`: the UTF-8 encoding of a rune; surrogates and values
beyond U+10FFFF are encoded as U+FFFD. -/
def encodeRune (r : Nat) : List Nat :=
  if r < 0x80 then [r]
  else if r < 0x800 then [0xC0 + r / 64, 0x80 + r % 64]
  else if (0xD800 ≤ r ∧ r ≤ 0xDFFF) ∨ 0x10FFFF < r then [0xEF, 0xBF, 0xBD]
  else if r < 0x10000 then [0xE0 + r / 4096, 0x80 + r / 64 % 64, 0x80 + r % 64]
  else [0xF0 + r / 262144, 0x80 + r / 4096 % 64, 0x80 + r / 64 % 64, 0x80 + r % 64]

/-- The bytes of a string literal of the source text. -/
def str (s : String) : GoString :=
  s.toList.flatMap fun c => encodeRune c.toNat

/-! ## Errors -/

/-- Go `error` values that the embedded functions build or pass on. -/
inductive Error where
  /-- an error value produced by an external collaborator -/
  | upstream (msg : GoString)
  /-- `received an empty value in change flag` -/
  | emptyChange
  /-- `malformed json in change flag value %q` -/
  | malformedJSON (change : GoString)
  /-- `unknown change directive %q` -/
  | unknownDirective (token : GoString)
  /-- `multiple IDs found with provided prefix: %s` -/
  | multipleIDs (req : GoString)
  /-- `no such container %s` -/
  | noSuchContainer (req : GoString)
  /-- `invalid label format %q (expected LABEL=VALUE)` -/
  | invalidLabelFormat (labelArg : GoString)
  /-- `failed to get snapshot info: %w` -/
  | statFailed (cause : Error)
  /-- `failed to update snapshot: %w` -/
  | updateFailed (cause : Error)
  deriving DecidableEq, Repr

/-- The outcome of running a Go function: it returns, or it panics. -/
inductive GoResult (α : Type) where
  | returned (a : α)
  | panicked (msg : String)
  deriving DecidableEq, Repr

/-! ## Contexts (`context.Context`) -/

/-- The two errors a context reports once it is done. -/
inductive CtxError where
  | Canceled
  | DeadlineExceeded
  deriving DecidableEq, Repr

/-- A value of a Go channel type `<-chan struct{}` as returned by `Done()`:
the instant at which it is closed, if it ever is. -/
structure DoneChan where
  closedAt : Option Nat
  deriving DecidableEq, Repr

/-- The `context.Context` interface: the results of its four methods. Time is
explicit, in nanoseconds; `Err t` is what `Err()` returns when called at `t`.
`Done = none` is the nil channel. -/
structure Context where
  Deadline : Option Nat
  Done : Option DoneChan
  Err : Nat → Option CtxError
  Value : GoString → Option GoString

/-- Whether a receive from `ctx.Done()` can proceed at time `t`. A nil channel
blocks forever. -/
def Context.fires (ctx : Context) (t : Nat) : Bool :=
  match ctx.Done with
  | none => false
  | some ch =>
    match ch.closedAt with
    | none => false
    | some t0 => decide (t0 ≤ t)

/-- `time.Second`, in nanoseconds. -/
def Second : Nat := 1000000000

/-- `type clearCancel struct { context.Context }` with its three overriding
methods; `Value` is promoted from the embedded context. -/
def clearCancel (ctx : Context) : Context :=
  { Deadline := none
    Done := none
    Err := fun _ => none
    Value := ctx.Value }

/-- `Background` creates a new context which clears out the parent errors. -/
def Background (ctx : Context) : Context :=
  clearCancel ctx

/-- Go's `context.WithCancel(parent)` before its cancel function is called:
done exactly when the parent is. -/
def WithCancel (parent : Context) : Context :=
  { Deadline := parent.Deadline
    Done := some ⟨parent.Done.bind DoneChan.closedAt⟩
    Err := fun t =>
      match parent.Done.bind DoneChan.closedAt with
      | none => none
      | some t0 => if t0 ≤ t then parent.Err t0 else none
    Value := parent.Value }

/-- Go's `context.WithTimeout(parent, timeout)` called at time `now`, following
the library documentation of `WithDeadline`: when the parent's deadline is
already earlier the result is `WithCancel(parent)`; otherwise the result has
deadline `now + timeout` and is done when that deadline expires or when the
parent's `Done` channel is closed, whichever happens first. The returned cancel
function is called by `Do` only after the action has returned. -/
def WithTimeout (parent : Context) (now timeout : Nat) : Context :=
  let d := now + timeout
  let timer : Context :=
    { Deadline := some d
      Done := some ⟨
        match parent.Done.bind DoneChan.closedAt with
        | none => some d
        | some t0 => some (min t0 d)⟩
      Err := fun t =>
        match parent.Done.bind DoneChan.closedAt with
        | none => if d ≤ t then some CtxError.DeadlineExceeded else none
        | some t0 =>
          if t0 < d then (if t0 ≤ t then parent.Err t0 else none)
          else if d ≤ t then some CtxError.DeadlineExceeded else none
      Value := parent.Value }
  match parent.Deadline with
  | some cur => if cur < d then WithCancel parent else timer
  | none => timer

/-- `Do` runs the provided function with a context in which the errors are
cleared out and will timeout after 10 seconds. `now` is the clock reading taken
by `context.WithTimeout`; the action is a state transformer on the world `ω`.
The cancel function called after the action only releases the timer. -/
def Do {ω : Type} (ctx : Context) (now : Nat) (action : Context → ω → Unit × ω) :
    ω → Unit × ω :=
  fun w =>
    let ctx1 := WithTimeout (clearCancel ctx) now (10 * Second)
    action ctx1 w

/-! ## The snapshot service, the diff comparer and the trace of calls -/

/-- `snapshots.Kind`. -/
inductive Kind where
  | KindUnknown
  | KindView
  | KindActive
  | KindCommitted
  deriving DecidableEq, Repr

/-- A Go `map[string]string` as an association list with distinct keys. -/
abbrev GoMap := List (GoString × GoString)

/-- `snapshots.Info`; `Labels = none` is the nil map. -/
structure Info where
  Kind : Kind
  Name : GoString
  Parent : GoString
  Labels : Option GoMap
  deriving DecidableEq, Repr

/-- `mount.Mount`; `MountType` is its field `Type`. -/
structure Mount where
  MountType : GoString
  Source : GoString
  Target : GoString
  Options : List GoString
  deriving DecidableEq, Repr

/-- `ocispec.Descriptor`, reduced to digest, size and media type; the default
value is Go's zero value `ocispec.Descriptor{}`. -/
structure Descriptor where
  MediaType : GoString := []
  Digest : GoString := []
  Size : Int := 0
  deriving DecidableEq, Repr

/-- A `diff.Opt`, kept abstract. -/
abbrev DiffOpt := GoString

/-- The `snapshots.Snapshotter` interface, as far as the sources call it. Every
method receives the context it is called with and the current world state, and
returns its result with the next world state. -/
structure Snapshotter (σ : Type) where
  Stat : Context → GoString → σ → Except Error Info × σ
  View : Context → GoString → GoString → σ → Except Error (List Mount) × σ
  Mounts : Context → GoString → σ → Except Error (List Mount) × σ
  Remove : Context → GoString → σ → Option Error × σ
  Update : Context → Info → List GoString → σ → Except Error Info × σ

/-- The `diff.Comparer` interface. `Compare` returns a Go pair. -/
structure Comparer (σ : Type) where
  Compare : Context → List Mount → List Mount → List DiffOpt → σ →
    (Descriptor × Option Error) × σ

/-- `commit.Changes`: the overrides of the image configuration; `none` is the
nil slice, an override that is not set. -/
structure Changes where
  CMD : Option (List GoString) := none
  Entrypoint : Option (List GoString) := none
  deriving DecidableEq, Repr

/-- `commit.Opts` as `Commit` fills it in (lines 46-57); the option groups whose
content `Commit` only copies are kept opaque. -/
structure Opts where
  Author : GoString
  Message : GoString
  Ref : GoString
  Pause : Bool
  Changes : Changes
  Compression : GoString
  Format : GoString
  EstargzOptions : GoString
  ZstdChunkedOptions : GoString
  DevboxOptions : GoString
  deriving DecidableEq, Repr

/-- One call through an interface of an external collaborator, with its
arguments and its result. -/
inductive Event where
  | stat (ctx : Context) (key : GoString) (res : Except Error Info)
  | view (ctx : Context) (key parent : GoString) (res : Except Error (List Mount))
  | mounts (ctx : Context) (key : GoString) (res : Except Error (List Mount))
  | remove (ctx : Context) (key : GoString) (err : Option Error)
  | update (ctx : Context) (info : Info) (fieldpaths : List GoString)
      (res : Except Error Info)
  | compare (ctx : Context) (lower upper : List Mount) (opts : List DiffOpt)
      (res : Descriptor × Option Error)
  | write (text : GoString) (err : Option Error)
  | containers (ctx : Context) (req : GoString) (res : Except Error (List GoString))
  | commit (ctx : Context) (container : GoString) (opts : Opts)
      (res : Except Error GoString)

/-- The world a function runs in: the state of the external collaborators and
the calls made so far. -/
structure World (σ : Type) where
  state : σ
  trace : List Event

/-- Computations that call external collaborators. -/
abbrev M (σ : Type) (α : Type) := World σ → α × World σ

/-- `sn.Stat(ctx, key)`. -/
def callStat {σ : Type} (sn : Snapshotter σ) (ctx : Context) (key : GoString) :
    M σ (Except Error Info) := fun w =>
  let r := sn.Stat ctx key w.state
  (r.1, ⟨r.2, w.trace ++ [Event.stat ctx key r.1]⟩)

/-- `sn.View(ctx, key, parent)`. -/
def callView {σ : Type} (sn : Snapshotter σ) (ctx : Context) (key parent : GoString) :
    M σ (Except Error (List Mount)) := fun w =>
  let r := sn.View ctx key parent w.state
  (r.1, ⟨r.2, w.trace ++ [Event.view ctx key parent r.1]⟩)

/-- `sn.Mounts(ctx, key)`. -/
def callMounts {σ : Type} (sn : Snapshotter σ) (ctx : Context) (key : GoString) :
    M σ (Except Error (List Mount)) := fun w =>
  let r := sn.Mounts ctx key w.state
  (r.1, ⟨r.2, w.trace ++ [Event.mounts ctx key r.1]⟩)

/-- `sn.Remove(ctx, key)` with its error discarded, as in the deferred
closures of `CreateDiff`. -/
def callRemove {σ : Type} (sn : Snapshotter σ) (ctx : Context) (key : GoString) :
    M σ Unit := fun w =>
  let r := sn.Remove ctx key w.state
  ((), ⟨r.2, w.trace ++ [Event.remove ctx key r.1]⟩)

/-- `sn.Update(ctx, info, fieldpaths...)`. -/
def callUpdate {σ : Type} (sn : Snapshotter σ) (ctx : Context) (info : Info)
    (fieldpaths : List GoString) : M σ (Except Error Info) := fun w =>
  let r := sn.Update ctx info fieldpaths w.state
  (r.1, ⟨r.2, w.trace ++ [Event.update ctx info fieldpaths r.1]⟩)

/-- `d.Compare(ctx, lower, upper, opts...)`. -/
def callCompare {σ : Type} (d : Comparer σ) (ctx : Context) (lower upper : List Mount)
    (opts : List DiffOpt) : M σ (Descriptor × Option Error) := fun w =>
  let r := d.Compare ctx lower upper opts w.state
  (r.1, ⟨r.2, w.trace ++ [Event.compare ctx lower upper opts r.1]⟩)

/-- What `CreateDiff` reads from its environment besides the snapshot service:
the results of its two `uniquePart()` calls (a helper of the package that only
builds a fresh suffix) and the clock readings of its two deferred `Do` calls. -/
structure Oracle where
  lowerUnique : GoString
  upperUnique : GoString
  lowerCleanupTime : Nat
  upperCleanupTime : Nat

/-- `fmt.Sprintf("%s-parent-view-%s", parent, uniquePart())`. -/
def lowerKeyOf (parent unique : GoString) : GoString :=
  parent ++ str "-parent-view-" ++ unique

/-- `fmt.Sprintf("%s-view-%s", snapshotID, uniquePart())`. -/
def upperKeyOf (snapshotID unique : GoString) : GoString :=
  snapshotID ++ str "-view-" ++ unique

/-- Lines 69-78 of `CreateDiff`: the parent the lower view is taken of, or the
error of the second `Stat`. -/
def selectParent {σ : Type} (sn : Snapshotter σ) (ctx : Context) (info : Info)
    (removeTopLayer : Bool) : M σ (Except Error GoString) := fun w =>
  if removeTopLayer then
    match callStat sn ctx info.Parent w with
    | (Except.error err, w1) => (Except.error err, w1)
    | (Except.ok secondInfo, w1) =>
      if secondInfo.Parent ≠ [] then (Except.ok secondInfo.Parent, w1)
      else (Except.ok info.Parent, w1)
  else (Except.ok info.Parent, w)

/-- Lines 89-106 of `CreateDiff`: obtain the upper mounts, run the comparer, and
run the deferred removal of the upper view when one was opened. -/
def diffUpper {σ : Type} (sn : Snapshotter σ) (d : Comparer σ) (ctx : Context)
    (o : Oracle) (snapshotID : GoString) (info : Info) (lower : List Mount)
    (opts : List DiffOpt) : M σ (Descriptor × Option Error) := fun w =>
  if info.Kind = Kind.KindActive then
    match callMounts sn ctx snapshotID w with
    | (Except.error err, w1) => (({}, some err), w1)
    | (Except.ok upper, w1) => callCompare d ctx lower upper opts w1
  else
    let upperKey := upperKeyOf snapshotID o.upperUnique
    match callView sn ctx upperKey snapshotID w with
    | (Except.error err, w1) => (({}, some err), w1)
    | (Except.ok upper, w1) =>
      let (r, w2) := callCompare d ctx lower upper opts w1
      let (_, w3) := Do ctx o.upperCleanupTime (fun c => callRemove sn c upperKey) w2
      (r, w3)

/-- `CreateDiff` creates a layer diff for the given snapshot identifier from the
parent of the snapshot. Deferred calls run after the returned values are
computed, last registered first. -/
def CreateDiff {σ : Type} (ctx : Context) (snapshotID : GoString) (sn : Snapshotter σ)
    (d : Comparer σ) (removeTopLayer : Bool) (opts : List DiffOpt) (o : Oracle) :
    M σ (Descriptor × Option Error) := fun w =>
  match callStat sn ctx snapshotID w with
  | (Except.error err, w1) => (({}, some err), w1)
  | (Except.ok info, w1) =>
    match selectParent sn ctx info removeTopLayer w1 with
    | (Except.error err, w2) => (({}, some err), w2)
    | (Except.ok parent, w2) =>
      let lowerKey := lowerKeyOf parent o.lowerUnique
      match callView sn ctx lowerKey parent w2 with
      | (Except.error err, w3) => (({}, some err), w3)
      | (Except.ok lower, w3) =>
        let (r, w4) := diffUpper sn d ctx o snapshotID info lower opts w3
        let (_, w5) := Do ctx o.lowerCleanupTime (fun c => callRemove sn c lowerKey) w4
        (r, w5)

/-- The world before any call was made. -/
def start {σ : Type} (s : σ) : World σ := ⟨s, []⟩

/-- The keys of the `View` calls of a trace that succeeded, in call order. -/
def openedKeys : List Event → List GoString
  | [] => []
  | Event.view _ key _ (Except.ok _) :: rest => key :: openedKeys rest
  | _ :: rest => openedKeys rest

/-- The keys passed to `Remove` in a trace, in call order. -/
def removedKeys : List Event → List GoString
  | [] => []
  | Event.remove _ key _ :: rest => key :: removedKeys rest
  | _ :: rest => removedKeys rest

/-- The errors of the `Remove` calls of a trace that failed. -/
def removeErrors : List Event → List Error
  | [] => []
  | Event.remove _ _ (some err) :: rest => err :: removeErrors rest
  | _ :: rest => removeErrors rest

/-- Whether an event is a `Remove` call. -/
def Event.isRemove : Event → Bool
  | Event.remove _ _ _ => true
  | _ => false

/-- Whether an event is a `Stat` call. -/
def Event.isStat : Event → Bool
  | Event.stat _ _ _ => true
  | _ => false

/-- The context handed to a deferred cleanup that `Do` starts at time `t`. -/
def cleanupCtx (ctx : Context) (t : Nat) : Context :=
  WithTimeout (clearCancel ctx) t (10 * Second)

/-- The `View` calls of a trace, as pairs of key and parent, in call order. -/
def viewCalls : List Event → List (GoString × GoString)
  | [] => []
  | Event.view _ key parent _ :: rest => (key, parent) :: viewCalls rest
  | _ :: rest => viewCalls rest

/-- The keys passed to `Stat` in a trace, in call order. -/
def statCalls : List Event → List GoString
  | [] => []
  | Event.stat _ key _ :: rest => key :: statCalls rest
  | _ :: rest => statCalls rest

/-- Whether an event is a `Mounts` call. -/
def Event.isMounts : Event → Bool
  | Event.mounts _ _ _ => true
  | _ => false

/-- Whether an event is a call of the comparer. -/
def Event.isCompare : Event → Bool
  | Event.compare _ _ _ _ _ => true
  | _ => false

/-- What it means for a snapshot service to keep a set of views: `Stat`,
`Mounts` and the comparer leave the set alone, a `View` that succeeds adds its
key, which was not in use, a `View` that fails adds nothing, and a `Remove`
that succeeds deletes its key. -/
structure ViewLaws {σ : Type} (sn : Snapshotter σ) (d : Comparer σ)
    (views : σ → Finset GoString) : Prop where
  stat : ∀ c k s, views (sn.Stat c k s).2 = views s
  mounts : ∀ c k s, views (sn.Mounts c k s).2 = views s
  compare : ∀ c l u o s, views (d.Compare c l u o s).2 = views s
  view_ok : ∀ c k p s m, (sn.View c k p s).1 = Except.ok m →
    k ∉ views s ∧ views (sn.View c k p s).2 = insert k (views s)
  view_error : ∀ c k p s e, (sn.View c k p s).1 = Except.error e →
    views (sn.View c k p s).2 = views s
  remove_ok : ∀ c k s, (sn.Remove c k s).1 = none →
    views (sn.Remove c k s).2 = (views s).erase k

/-! ## A concrete snapshot service

A small in-memory snapshot service and comparer, used to run the embedded
functions on concrete inputs. Its state is the list of snapshots it holds. -/

/-- The snapshot named `key`, if the service holds one. -/
def lookupSnapshot (key : GoString) : List Info → Option Info
  | [] => none
  | i :: rest => if i.Name = key then some i else lookupSnapshot key rest

/-- The mounts of a snapshot in the in-memory service. -/
def mountsOf (key : GoString) : List Mount :=
  [{ MountType := str "bind", Source := key, Target := [], Options := [str "ro"] }]

/-- The in-memory snapshot service: `Stat` and `Mounts` look a snapshot up,
`View` adds a snapshot of kind View under a key that is not in use and on a
parent that exists (or on no parent), `Remove` deletes a snapshot that exists,
`Update` replaces the labels of a snapshot that exists. -/
def memSnapshotter : Snapshotter (List Info) where
  Stat _ key s :=
    match lookupSnapshot key s with
    | some i => (Except.ok i, s)
    | none => (Except.error (Error.upstream (str "not found")), s)
  View _ key parent s :=
    if (lookupSnapshot key s).isSome then
      (Except.error (Error.upstream (str "already exists")), s)
    else if parent ≠ [] ∧ (lookupSnapshot parent s).isNone then
      (Except.error (Error.upstream (str "not found")), s)
    else
      (Except.ok (mountsOf key),
        { Kind := Kind.KindView, Name := key, Parent := parent, Labels := none } :: s)
  Mounts _ key s :=
    match lookupSnapshot key s with
    | some _ => (Except.ok (mountsOf key), s)
    | none => (Except.error (Error.upstream (str "not found")), s)
  Remove _ key s :=
    match lookupSnapshot key s with
    | some _ => (none, s.filter fun i => i.Name ≠ key)
    | none => (some (Error.upstream (str "not found")), s)
  Update _ info _ s :=
    match lookupSnapshot info.Name s with
    | some i =>
      (Except.ok { i with Labels := info.Labels },
        s.map fun j => if j.Name = info.Name then { j with Labels := info.Labels } else j)
    | none => (Except.error (Error.upstream (str "not found")), s)

/-- A comparer that describes the diff by the sources of its first two mounts
and never touches the snapshot service. -/
def memComparer : Comparer (List Info) where
  Compare _ lower upper _ s :=
    (({ MediaType := str "application/vnd.oci.image.layer.v1.tar",
        Digest := (lower.map Mount.Source).flatten ++ str ".." ++ (upper.map Mount.Source).flatten,
        Size := 1 }, none), s)

/-- The keys of the views the in-memory service holds. -/
def memViews (s : List Info) : Finset GoString :=
  ((s.filter fun i => i.Kind = Kind.KindView).map Info.Name).toFinset

/-- A context that was cancelled at time 0. -/
def cancelledCtx : Context :=
  { Deadline := none
    Done := some ⟨some 0⟩
    Err := fun _ => some CtxError.Canceled
    Value := fun _ => none }

/-- A base image snapshot, a committed layer on it and the active snapshot of a
container on that layer. -/
def sampleSnapshots : List Info :=
  [ { Kind := Kind.KindCommitted, Name := str "base", Parent := [], Labels := none },
    { Kind := Kind.KindCommitted, Name := str "layer", Parent := str "base", Labels := none },
    { Kind := Kind.KindActive, Name := str "ctr", Parent := str "layer", Labels := none } ]

/-- Sample suffixes and clock readings. -/
def sampleOracle : Oracle :=
  { lowerUnique := str "1-aaaa"
    upperUnique := str "2-bbbb"
    lowerCleanupTime := 7
    upperCleanupTime := 5 }

/-- The active snapshot of a container created from no image: it has no
parent. -/
def rootSnapshots : List Info :=
  [ { Kind := Kind.KindActive, Name := str "solo", Parent := [], Labels := none } ]

/-! ## Go library functions used by `parseChanges` and `Update`

`strings.Fields`, `strings.SplitN` and `json.Unmarshal` are functions of the Go
standard library. They are modelled here on byte sequences, following the
library's sources: UTF-8 decoding as in `unicode/utf8`, white space as in
`unicode.IsSpace`, JSON syntax as accepted by the scanner of `encoding/json`
and decoding into a `[]string` as done by its decoder. -/

/-- `utf8.RuneError`. -/
def RuneError : Nat := 0xFFFD

/-- Go's `utf8.DecodeRune`: the first rune of a byte sequence and its width in
bytes; an invalid or truncated encoding gives `(RuneError, 1)`. -/
def decodeRune : List Nat → Nat × Nat
  | [] => (RuneError, 0)
  | p0 :: rest =>
    if p0 < 0x80 then (p0, 1)
    else if p0 < 0xC2 ∨ 0xF4 < p0 then (RuneError, 1)
    else
      let sz := if p0 < 0xE0 then 2 else if p0 < 0xF0 then 3 else 4
      let lo := if p0 = 0xE0 then 0xA0 else if p0 = 0xF0 then 0x90 else 0x80
      let hi := if p0 = 0xED then 0x9F else if p0 = 0xF4 then 0x8F else 0xBF
      if rest.length + 1 < sz then (RuneError, 1)
      else
        match rest with
        | [] => (RuneError, 1)
        | b1 :: rest1 =>
          if b1 < lo ∨ hi < b1 then (RuneError, 1)
          else if sz ≤ 2 then (p0 % 32 * 64 + b1 % 64, 2)
          else
            match rest1 with
            | [] => (RuneError, 1)
            | b2 :: rest2 =>
              if b2 < 0x80 ∨ 0xBF < b2 then (RuneError, 1)
              else if sz ≤ 3 then (p0 % 16 * 4096 + b1 % 64 * 64 + b2 % 64, 3)
              else
                match rest2 with
                | [] => (RuneError, 1)
                | b3 :: _ =>
                  if b3 < 0x80 ∨ 0xBF < b3 then (RuneError, 1)
                  else (p0 % 8 * 262144 + b1 % 64 * 4096 + b2 % 64 * 64 + b3 % 64, 4)

/-- Go's `unicode.IsSpace`. -/
def IsSpace (r : Nat) : Bool :=
  if r ≤ 0xFF then
    r = 0x09 ∨ r = 0x0A ∨ r = 0x0B ∨ r = 0x0C ∨ r = 0x0D ∨ r = 0x20 ∨ r = 0x85 ∨ r = 0xA0
  else
    r = 0x1680 ∨ (0x2000 ≤ r ∧ r ≤ 0x200A) ∨ r = 0x2028 ∨ r = 0x2029 ∨ r = 0x202F
      ∨ r = 0x205F ∨ r = 0x3000

/-- The table `asciiSpace` of package `strings`. -/
def asciiSpace (c : Nat) : Bool :=
  c = 0x09 ∨ c = 0x0A ∨ c = 0x0B ∨ c = 0x0C ∨ c = 0x0D ∨ c = 0x20

/-- The field being read, if any, as a list of fields. -/
def flushField : Option GoString → List GoString
  | none => []
  | some f => [f]

/-- The loop of the ASCII path of `strings.Fields`: `cur` is the field being
read, `none` between fields. -/
def fieldsASCII : List Nat → Option GoString → List GoString
  | [], cur => flushField cur
  | c :: rest, cur =>
    if asciiSpace c then flushField cur ++ fieldsASCII rest none
    else fieldsASCII rest (some (cur.getD [] ++ [c]))

/-- The loop of `strings.FieldsFunc(s, f)`, rune by rune; every step consumes at
least one byte, so a fuel of `len(s)` is never used up. -/
def fieldsFuncLoop (f : Nat → Bool) : Nat → List Nat → Option GoString → List GoString
  | 0, _, cur => flushField cur
  | fuel + 1, s, cur =>
    match s with
    | [] => flushField cur
    | c :: rest =>
      let size := (decodeRune (c :: rest)).2
      if f (decodeRune (c :: rest)).1 then
        flushField cur ++ fieldsFuncLoop f fuel ((c :: rest).drop size) none
      else
        fieldsFuncLoop f fuel ((c :: rest).drop size)
          (some (cur.getD [] ++ (c :: rest).take size))

/-- Go's `strings.FieldsFunc`. -/
def FieldsFunc (s : GoString) (f : Nat → Bool) : List GoString :=
  fieldsFuncLoop f s.length s none

/-- Go's `strings.Fields`: splits around runs of white space; an input of ASCII
bytes only takes the fast path, any other input goes through `FieldsFunc` with
`unicode.IsSpace`. -/
def Fields (s : GoString) : List GoString :=
  if s.all (fun c => decide (c < 0x80)) then fieldsASCII s none
  else FieldsFunc s IsSpace

/-- Go's `strings.SplitN(s, "=", 2)`: the text before the first `=` and the text
after it, or `s` alone when it holds no `=`. -/
def splitFirstEq : GoString → List Nat → List GoString
  | [], acc => [acc]
  | c :: rest, acc => if c = 0x3D then [acc, rest] else splitFirstEq rest (acc ++ [c])

/-- `strings.SplitN(s, "=", 2)`. -/
def SplitN2 (s : GoString) : List GoString :=
  splitFirstEq s []

/-- A parsed JSON value, as far as decoding into a `[]string` looks at it: the
raw text of a string literal (between its quotes) and the elements of an array
are kept. -/
inductive JSONValue where
  | null
  | bool
  | number
  | string (raw : GoString)
  | array (elems : List JSONValue)
  | object

/-- The scanner's `isSpace`: space, tab, carriage return, line feed. -/
def isJSONSpace (c : Nat) : Bool :=
  c = 0x20 ∨ c = 0x09 ∨ c = 0x0D ∨ c = 0x0A

/-- Drops leading JSON white space. -/
def skipSpace : List Nat → List Nat
  | [] => []
  | c :: rest => if isJSONSpace c then skipSpace rest else c :: rest

/-- An ASCII decimal digit. -/
def isDigit (c : Nat) : Bool :=
  0x30 ≤ c ∧ c ≤ 0x39

/-- An ASCII hexadecimal digit. -/
def isHex (c : Nat) : Bool :=
  (0x30 ≤ c ∧ c ≤ 0x39) ∨ (0x61 ≤ c ∧ c ≤ 0x66) ∨ (0x41 ≤ c ∧ c ≤ 0x46)

/-- The value of a hexadecimal digit. -/
def hexVal (c : Nat) : Nat :=
  if 0x30 ≤ c ∧ c ≤ 0x39 then c - 0x30
  else if 0x61 ≤ c ∧ c ≤ 0x66 then c - 0x61 + 10
  else c - 0x41 + 10

/-- Drops leading decimal digits. -/
def skipDigits : List Nat → List Nat
  | [] => []
  | c :: rest => if isDigit c then skipDigits rest else c :: rest

/-- The scanner inside a string literal, after the opening quote: the raw text
up to the closing quote and the input after it. Control bytes and escapes other
than `\" \\ \/ \b \f \n \r \t \uXXXX` are syntax errors. -/
def scanString : List Nat → Option (GoString × List Nat)
  | [] => none
  | c :: rest =>
    if c = 0x22 then some ([], rest)
    else if c = 0x5C then
      match rest with
      | [] => none
      | e :: rest1 =>
        if e = 0x62 ∨ e = 0x66 ∨ e = 0x6E ∨ e = 0x72 ∨ e = 0x74 ∨ e = 0x5C ∨ e = 0x2F
            ∨ e = 0x22 then
          match scanString rest1 with
          | none => none
          | some (raw, out) => some (c :: e :: raw, out)
        else if e = 0x75 then
          match rest1 with
          | h1 :: h2 :: h3 :: h4 :: rest2 =>
            if isHex h1 ∧ isHex h2 ∧ isHex h3 ∧ isHex h4 then
              match scanString rest2 with
              | none => none
              | some (raw, out) => some (c :: e :: h1 :: h2 :: h3 :: h4 :: raw, out)
            else none
          | _ => none
        else none
    else if c < 0x20 then none
    else
      match scanString rest with
      | none => none
      | some (raw, out) => some (c :: raw, out)

/-- The exponent part of a number, if any, and what follows the number. -/
def scanExponent : List Nat → Option (List Nat)
  | [] => some []
  | c :: rest =>
    if c = 0x65 ∨ c = 0x45 then
      match rest with
      | [] => none
      | d :: rest1 =>
        if d = 0x2B ∨ d = 0x2D then
          match rest1 with
          | [] => none
          | d1 :: rest2 => if isDigit d1 then some (skipDigits rest2) else none
        else if isDigit d then some (skipDigits rest1)
        else none
    else some (c :: rest)

/-- The fraction and exponent parts of a number, if any, and what follows the
number. -/
def scanFraction : List Nat → Option (List Nat)
  | [] => some []
  | c :: rest =>
    if c = 0x2E then
      match rest with
      | [] => none
      | d :: rest1 => if isDigit d then scanExponent (skipDigits rest1) else none
    else scanExponent (c :: rest)

/-- The scanner on a number, after an optional minus sign: no leading zeros. -/
def scanUnsigned : List Nat → Option (List Nat)
  | [] => none
  | c :: rest =>
    if c = 0x30 then scanFraction rest
    else if 0x31 ≤ c ∧ c ≤ 0x39 then scanFraction (skipDigits rest)
    else none

/-- Drops `word` from the front of the input, if the input starts with it. -/
def dropPrefix? : List Nat → List Nat → Option (List Nat)
  | [], input => some input
  | _ :: _, [] => none
  | w :: word, c :: input => if w = c then dropPrefix? word input else none

/-- `maxNestingDepth` of `encoding/json`. -/
def maxNestingDepth : Nat := 10000

mutual
/-- One JSON value, after optional white space, and the input after it. `depth`
counts the arrays and objects that are open. -/
def parseValue : Nat → Nat → List Nat → Option (JSONValue × List Nat)
  | 0, _, _ => none
  | fuel + 1, depth, input =>
    match skipSpace input with
    | [] => none
    | c :: rest =>
      if c = 0x5B then
        if maxNestingDepth < depth + 1 then none
        else
          match skipSpace rest with
          | [] => none
          | c1 :: rest1 =>
            if c1 = 0x5D then some (JSONValue.array [], rest1)
            else parseElements fuel (depth + 1) (c1 :: rest1) []
      else if c = 0x7B then
        if maxNestingDepth < depth + 1 then none
        else
          match skipSpace rest with
          | [] => none
          | c1 :: rest1 =>
            if c1 = 0x7D then some (JSONValue.object, rest1)
            else parseMembers fuel (depth + 1) (c1 :: rest1)
      else if c = 0x22 then
        match scanString rest with
        | none => none
        | some (raw, out) => some (JSONValue.string raw, out)
      else if c = 0x2D then (scanUnsigned rest).map fun out => (JSONValue.number, out)
      else if isDigit c then (scanUnsigned (c :: rest)).map fun out => (JSONValue.number, out)
      else if c = 0x74 then
        (dropPrefix? [0x72, 0x75, 0x65] rest).map fun out => (JSONValue.bool, out)
      else if c = 0x66 then
        (dropPrefix? [0x61, 0x6C, 0x73, 0x65] rest).map fun out => (JSONValue.bool, out)
      else if c = 0x6E then
        (dropPrefix? [0x75, 0x6C, 0x6C] rest).map fun out => (JSONValue.null, out)
      else none
/-- The elements of an array after its first byte, up to the closing bracket. -/
def parseElements : Nat → Nat → List Nat → List JSONValue → Option (JSONValue × List Nat)
  | 0, _, _, _ => none
  | fuel + 1, depth, input, acc =>
    match parseValue fuel depth input with
    | none => none
    | some (v, rest) =>
      match skipSpace rest with
      | [] => none
      | c :: rest1 =>
        if c = 0x2C then parseElements fuel depth rest1 (acc ++ [v])
        else if c = 0x5D then some (JSONValue.array (acc ++ [v]), rest1)
        else none
/-- The members of an object after its first byte, up to the closing brace:
each a string key, a colon and a value. -/
def parseMembers : Nat → Nat → List Nat → Option (JSONValue × List Nat)
  | 0, _, _ => none
  | fuel + 1, depth, input =>
    match skipSpace input with
    | [] => none
    | q :: rest =>
      if q = 0x22 then
        match scanString rest with
        | none => none
        | some (_, rest1) =>
          match skipSpace rest1 with
          | [] => none
          | colon :: rest2 =>
            if colon = 0x3A then
              match parseValue fuel depth rest2 with
              | none => none
              | some (_, rest3) =>
                match skipSpace rest3 with
                | [] => none
                | c :: rest4 =>
                  if c = 0x2C then parseMembers fuel depth rest4
                  else if c = 0x7D then some (JSONValue.object, rest4)
                  else none
            else none
      else none
end

/-- The `checkValid` step of `json.Unmarshal`: the whole input is one JSON value
surrounded by optional white space. -/
def parseJSON (data : GoString) : Option JSONValue :=
  match parseValue (2 * data.length + 2) 0 data with
  | none => none
  | some (v, rest) => if skipSpace rest = [] then some v else none

/-- The four hexadecimal digits at the front of the input, as a number. -/
def hex4 : List Nat → Option Nat
  | h1 :: h2 :: h3 :: h4 :: _ =>
    if isHex h1 ∧ isHex h2 ∧ isHex h3 ∧ isHex h4 then
      some (hexVal h1 * 4096 + hexVal h2 * 256 + hexVal h3 * 16 + hexVal h4)
    else none
  | _ => none

/-- The decoder's `getu4`: the number of a `\uXXXX` escape at the front of the
input. -/
def getu4 : List Nat → Option Nat
  | b :: u :: rest => if b = 0x5C ∧ u = 0x75 then hex4 rest else none
  | _ => none

/-- The byte an escape letter stands for. -/
def unescape (e : Nat) : Nat :=
  if e = 0x62 then 0x08
  else if e = 0x66 then 0x0C
  else if e = 0x6E then 0x0A
  else if e = 0x72 then 0x0D
  else if e = 0x74 then 0x09
  else e

/-- The decoder's `unquoteBytes` on the raw text of a string literal that the
scanner accepted: escapes are replaced, a surrogate pair of `\u` escapes gives
one rune, a lone surrogate and invalid UTF-8 give U+FFFD. -/
def unquoteLoop : Nat → List Nat → GoString
  | 0, _ => []
  | _ + 1, [] => []
  | fuel + 1, c :: rest =>
    if c = 0x5C then
      match rest with
      | [] => []
      | e :: rest1 =>
        if e = 0x75 then
          match hex4 rest1 with
          | none => []
          | some rr =>
            if 0xD800 ≤ rr ∧ rr < 0xE000 then
              match getu4 (rest1.drop 4) with
              | some rr1 =>
                if rr < 0xDC00 ∧ 0xDC00 ≤ rr1 ∧ rr1 < 0xE000 then
                  encodeRune ((rr - 0xD800) * 1024 + (rr1 - 0xDC00) + 0x10000)
                    ++ unquoteLoop fuel (rest1.drop 10)
                else encodeRune RuneError ++ unquoteLoop fuel (rest1.drop 4)
              | none => encodeRune RuneError ++ unquoteLoop fuel (rest1.drop 4)
            else encodeRune rr ++ unquoteLoop fuel (rest1.drop 4)
        else unescape e :: unquoteLoop fuel rest1
    else if c < 0x80 then c :: unquoteLoop fuel rest
    else
      encodeRune (decodeRune (c :: rest)).1
        ++ unquoteLoop fuel ((c :: rest).drop (decodeRune (c :: rest)).2)

/-- `unquoteBytes` on the raw text of a string literal. -/
def unquote (raw : GoString) : GoString :=
  unquoteLoop raw.length raw

/-- How the decoder stores one array element into a Go `string`: a string
literal is unquoted, `null` leaves the zero value `""`, anything else is an
`UnmarshalTypeError`. -/
def decodeElement : JSONValue → Option GoString
  | JSONValue.string raw => some (unquote raw)
  | JSONValue.null => some []
  | _ => none

/-- All elements decoded, or `none` if one of them is not a string or null. -/
def decodeElements : List JSONValue → Option (List GoString)
  | [] => some []
  | v :: rest =>
    match decodeElement v, decodeElements rest with
    | some x, some xs => some (x :: xs)
    | _, _ => none

/-- The error of `json.Unmarshal`, by kind. -/
inductive JSONError where
  | SyntaxError
  | UnmarshalTypeError
  deriving DecidableEq, Repr

/-- Go's `json.Unmarshal(data, &v)` for `var v []string` (a nil slice): `none`
is the nil slice, which the JSON literal `null` leaves in place; an array gives
a non-nil slice, empty for `[]`. -/
def jsonUnmarshalStrings (data : GoString) : Except JSONError (Option (List GoString)) :=
  match parseJSON data with
  | none => Except.error JSONError.SyntaxError
  | some JSONValue.null => Except.ok none
  | some (JSONValue.array elems) =>
    match decodeElements elems with
    | some xs => Except.ok (some xs)
    | none => Except.error JSONError.UnmarshalTypeError
  | some _ => Except.error JSONError.UnmarshalTypeError

/-! ## `parseChanges` -/

/-- What a run of `parseChanges` produces: the two values it returns and the
warnings it sent to the logger. -/
structure Parsed where
  changes : Changes
  err : Option Error
  warnings : List String
  deriving DecidableEq, Repr

/-- The constant `commandDirective`. -/
def commandDirective : GoString := str "CMD"

/-- The constant `entrypointDirective`. -/
def entrypointDirective : GoString := str "ENTRYPOINT"

/-- The warning logged when a second `CMD` directive is parsed. -/
def warnCMD : String :=
  "multiple change flags supplied for the CMD directive, overriding with last supplied"

/-- The warning logged when a second `ENTRYPOINT` directive is parsed. -/
def warnEntrypoint : String :=
  "multiple change flags supplied for the Entrypoint directive, overriding with last supplied"

/-- The `for` loop of `parseChanges` (lines 92-120) on the changes still to be
read, with the value of `changes` and the warnings logged so far. Indexing the
empty result of `strings.Fields` with `[0]` panics. -/
def parseChangesLoop : List GoString → Changes → List String → GoResult Parsed
  | [], changes, log => GoResult.returned ⟨changes, none, log⟩
  | change :: rest, changes, log =>
    if change = [] then GoResult.returned ⟨{}, some Error.emptyChange, log⟩
    else
      match Fields change with
      | [] => GoResult.panicked "runtime error: index out of range [0] with length 0"
      | field0 :: _ =>
        if field0 = commandDirective then
          match jsonUnmarshalStrings (change.drop field0.length) with
          | Except.error _ => GoResult.returned ⟨{}, some (Error.malformedJSON change), log⟩
          | Except.ok overrideCMD =>
            parseChangesLoop rest { changes with CMD := overrideCMD }
              (if changes.CMD ≠ none then log ++ [warnCMD] else log)
        else if field0 = entrypointDirective then
          match jsonUnmarshalStrings (change.drop field0.length) with
          | Except.error _ => GoResult.returned ⟨{}, some (Error.malformedJSON change), log⟩
          | Except.ok overrideEntrypoint =>
            parseChangesLoop rest { changes with Entrypoint := overrideEntrypoint }
              (if changes.Entrypoint ≠ none then log ++ [warnEntrypoint] else log)
        else GoResult.returned ⟨{}, some (Error.unknownDirective field0), log⟩

/-- `parseChanges(userChanges)`. A nil slice and an empty slice both give the
empty change set, by the test of line 88 and by the loop that does not run. -/
def parseChanges (userChanges : List GoString) : GoResult Parsed :=
  parseChangesLoop userChanges {} []

/-- The directive `change` is the keyword `kw`, then a JSON white space byte
`sp`, then a text `t`, and `json.Unmarshal` decodes what follows the keyword
into `v`: a JSON array of strings when `v` is `some` array. -/
def Accepted (kw : GoString) (v : Option (List GoString)) (change : GoString) : Prop :=
  ∃ sp t, change = kw ++ sp :: t ∧ isJSONSpace sp = true ∧
    jsonUnmarshalStrings (sp :: t) = Except.ok v

/-- The two kinds of directive that `parseChanges` supports. -/
inductive DirectiveKind where
  | cmd
  | entrypoint
  deriving DecidableEq, Repr

/-- The keyword of a kind of directive. -/
def DirectiveKind.keyword : DirectiveKind → GoString
  | DirectiveKind.cmd => commandDirective
  | DirectiveKind.entrypoint => entrypointDirective

/-- A directive given by its kind, the array of strings it carries and its
text. -/
structure Directive where
  kind : DirectiveKind
  value : List GoString
  text : GoString

/-- The text of the directive is its keyword followed by a JSON array of
strings with the value of the directive. -/
def Directive.WellFormed (d : Directive) : Prop :=
  Accepted d.kind.keyword (some d.value) d.text

/-- The array of the last directive of kind `k` in the list, if there is one. -/
def lastOverride (k : DirectiveKind) : List Directive → Option (List GoString)
  | [] => none
  | d :: ds =>
    match lastOverride k ds with
    | some v => some v
    | none => if d.kind = k then some d.value else none

/-- The change set in which the override of kind `k` is `v` and the other
override is not set. -/
def singleOverride (k : DirectiveKind) (v : Option (List GoString)) : Changes :=
  match k with
  | DirectiveKind.cmd => { CMD := v }
  | DirectiveKind.entrypoint => { Entrypoint := v }

/-! ## `Commit` -/

/-- `types.ContainerCommitOptions`, without its output stream and global
options, which are part of `CommitEnv`. -/
structure ContainerCommitOptions where
  Author : GoString
  Message : GoString
  Pause : Bool
  Change : List GoString
  Compression : GoString
  Format : GoString
  EstargzOptions : GoString
  ZstdChunkedOptions : GoString
  DevboxOptions : GoString

/-- The collaborators of `Commit`: `referenceutil.Parse` followed by `String()`,
the lookup of the containers that match a reference (done by the walker through
`client`), the commit procedure `commit.Commit` (with `client` and the global
options) and the output stream `options.Stdout`. -/
structure CommitEnv (σ : Type) where
  Parse : GoString → Except Error GoString
  Containers : Context → GoString → σ → Except Error (List GoString) × σ
  Commit : Context → GoString → Opts → σ → Except Error GoString × σ
  Stdout : GoString → σ → Option Error × σ

/-- `containerwalker.Found`. -/
structure Found where
  Container : GoString
  Req : GoString
  MatchIndex : Nat
  MatchCount : Nat

/-- The lookup of the containers matching `req`. -/
def callContainers {σ : Type} (env : CommitEnv σ) (ctx : Context) (req : GoString) :
    M σ (Except Error (List GoString)) := fun w =>
  let r := env.Containers ctx req w.state
  (r.1, ⟨r.2, w.trace ++ [Event.containers ctx req r.1]⟩)

/-- `commit.Commit(ctx, client, container, opts, options.GOptions)`. -/
def callCommit {σ : Type} (env : CommitEnv σ) (ctx : Context) (container : GoString)
    (opts : Opts) : M σ (Except Error GoString) := fun w =>
  let r := env.Commit ctx container opts w.state
  (r.1, ⟨r.2, w.trace ++ [Event.commit ctx container opts r.1]⟩)

/-- A write of `text` to an output stream. -/
def callWrite {σ : Type} (stdout : GoString → σ → Option Error × σ) (text : GoString) :
    M σ (Option Error) := fun w =>
  let r := stdout text w.state
  (r.1, ⟨r.2, w.trace ++ [Event.write text r.1]⟩)

/-- The loop of the walker over the matches. -/
def walkLoop {σ : Type} (OnFound : Context → Found → M σ (Option Error)) (ctx : Context)
    (req : GoString) (matchCount : Nat) : List GoString → Nat → M σ (Option Error)
  | [], _ => fun w => (none, w)
  | c :: rest, i => fun w =>
    match OnFound ctx ⟨c, req, i, matchCount⟩ w with
    | (some e, w1) => (some e, w1)
    | (none, w1) => walkLoop OnFound ctx req matchCount rest (i + 1) w1

/-- Modelled from the spec: `ContainerWalker.Walk` of package `containerwalker`
is not among the sources. Following section 4.4, step 3, and section 6
("prefix-based lookup returning zero, one, or many matches"): the reference is
resolved to the containers it matches; the callback `OnFound` is called on each
match in turn, with the number of matches in `MatchCount`; the first error
ends the walk and is returned with the count `-1`, as is an error of the lookup;
otherwise the number of matches is returned. -/
def Walk {σ : Type} (env : CommitEnv σ) (OnFound : Context → Found → M σ (Option Error))
    (ctx : Context) (req : GoString) : M σ (Int × Option Error) := fun w =>
  match callContainers env ctx req w with
  | (Except.error e, w1) => ((-1, some e), w1)
  | (Except.ok containers, w1) =>
    match walkLoop OnFound ctx req containers.length containers 0 w1 with
    | (some e, w2) => ((-1, some e), w2)
    | (none, w2) => (((containers.length : Int), none), w2)

/-- The callback `OnFound` that `Commit` gives to the walker (lines 61-71). -/
def commitOnFound {σ : Type} (env : CommitEnv σ) (opts : Opts) (ctx : Context)
    (found : Found) : M σ (Option Error) := fun w =>
  if found.MatchCount > 1 then (some (Error.multipleIDs found.Req), w)
  else
    match callCommit env ctx found.Container opts w with
    | (Except.error err, w1) => (some err, w1)
    | (Except.ok imageID, w1) => callWrite env.Stdout (imageID ++ [0x0A]) w1

/-- `Commit` will commit a container's file changes or settings into a new
image. A panic of `parseChanges` is a panic of `Commit`. -/
def Commit {σ : Type} (env : CommitEnv σ) (ctx : Context) (rawRef req : GoString)
    (options : ContainerCommitOptions) : M σ (GoResult (Option Error)) := fun w =>
  match env.Parse rawRef with
  | Except.error err => (GoResult.returned (some err), w)
  | Except.ok parsedReference =>
    match parseChanges options.Change with
    | GoResult.panicked msg => (GoResult.panicked msg, w)
    | GoResult.returned ⟨_, some err, _⟩ => (GoResult.returned (some err), w)
    | GoResult.returned ⟨changes, none, _⟩ =>
      let opts : Opts :=
        { Author := options.Author
          Message := options.Message
          Ref := parsedReference
          Pause := options.Pause
          Changes := changes
          Compression := options.Compression
          Format := options.Format
          EstargzOptions := options.EstargzOptions
          ZstdChunkedOptions := options.ZstdChunkedOptions
          DevboxOptions := options.DevboxOptions }
      match Walk env (commitOnFound env opts) ctx req w with
      | ((_, some err), w1) => (GoResult.returned (some err), w1)
      | ((n, none), w1) =>
        if n = 0 then (GoResult.returned (some (Error.noSuchContainer req)), w1)
        else (GoResult.returned none, w1)

/-- Whether an event is a call of the commit procedure. -/
def Event.isCommit : Event → Bool
  | Event.commit _ _ _ _ => true
  | _ => false

/-- Whether an event is a write to the output stream. -/
def Event.isWrite : Event → Bool
  | Event.write _ _ => true
  | _ => false

/-- Every write in the trace comes right after a call of the commit procedure
that returned an image identifier without error, and writes that identifier
followed by a newline. -/
def writesFollowCommit : List Event → Bool
  | [] => true
  | Event.write _ _ :: _ => false
  | Event.commit _ _ _ (Except.ok imageID) :: Event.write text _ :: rest =>
    decide (text = imageID ++ [0x0A]) && writesFollowCommit rest
  | _ :: rest => writesFollowCommit rest

/-- A commit environment for running `Commit` on concrete inputs: the world is
the text written to the output stream so far, the containers are `abc1`, `abc2`
and `xyz`, a reference matches the containers it is a prefix of, and the commit
procedure names the image after the container. -/
def memCommitEnv : CommitEnv (List GoString) where
  Parse rawRef :=
    if rawRef = [] then Except.error (Error.upstream (str "invalid reference format"))
    else Except.ok rawRef
  Containers _ req s :=
    (Except.ok ([str "abc1", str "abc2", str "xyz"].filter fun id => req.isPrefixOf id), s)
  Commit _ container _ s := (Except.ok (str "sha256:" ++ container), s)
  Stdout text s := (none, s ++ [text])

/-- Commit options with one change directive. -/
def sampleCommitOptions : ContainerCommitOptions :=
  { Author := str "me"
    Message := str "snapshot"
    Pause := true
    Change := [str "CMD [\"a\"]"]
    Compression := str "gzip"
    Format := str "docker"
    EstargzOptions := []
    ZstdChunkedOptions := []
    DevboxOptions := [] }

/-! ## `Update` -/

/-- `m[key]` with its presence flag, on a Go map. -/
def mapGet : GoMap → GoString → Option GoString
  | [], _ => none
  | (k, v) :: rest, key => if k = key then some v else mapGet rest key

/-- `m[key] = val` on a Go map: the entry of `key` is replaced, or added. -/
def mapSet : GoMap → GoString → GoString → GoMap
  | [], key, val => [(key, val)]
  | (k, v) :: rest, key, val =>
    if k = key then (k, val) :: rest else (k, v) :: mapSet rest key val

/-- The loop of lines 43-49 of `Update` on the arguments still to be read, with
the map `labels` built so far. -/
def parseLabelArgs : List GoString → GoMap → Except Error GoMap
  | [], labels => Except.ok labels
  | labelArg :: rest, labels =>
    match SplitN2 labelArg with
    | [k, v] => parseLabelArgs rest (mapSet labels k v)
    | _ => Except.error (Error.invalidLabelFormat labelArg)

/-- `types.SnapshotUpdateOptions`, as far as `Update` reads it. -/
structure SnapshotUpdateOptions (σ : Type) where
  Stdout : GoString → σ → Option Error × σ
  Snapshotter : GoString

/-- Lines 31-37 of `Update`: the name of the snapshotter, `overlayfs` when the
option is empty. -/
def snapshotterNameOf (name : GoString) : GoString :=
  if name ≠ [] then name else str "overlayfs"

/-- `Update` updates snapshot metadata (labels). `client` is
`client.SnapshotService`; `rangeOrder` is the order in which the `range` of
line 61 visits the entries of `labels`, which Go leaves unspecified. -/
def Update {σ : Type} (ctx : Context) (client : GoString → Snapshotter σ)
    (snapshotID : GoString) (labelArgs : List GoString) (options : SnapshotUpdateOptions σ)
    (rangeOrder : GoMap → GoMap) : M σ (Option Error) := fun w =>
  let snapshotter := client (snapshotterNameOf options.Snapshotter)
  match parseLabelArgs labelArgs [] with
  | Except.error err => (some err, w)
  | Except.ok labels =>
    match callStat snapshotter ctx snapshotID w with
    | (Except.error err, w1) => (some (Error.statFailed err), w1)
    | (Except.ok info, w1) =>
      let merged := (rangeOrder labels).foldl (fun m kv => mapSet m kv.1 kv.2)
        (info.Labels.getD [])
      match callUpdate snapshotter ctx { info with Labels := some merged } [str "labels"] w1 with
      | (Except.error err, w2) => (some (Error.updateFailed err), w2)
      | (Except.ok _, w2) =>
        let (_, w3) := callWrite options.Stdout
          (str "Successfully updated snapshot " ++ snapshotID ++ [0x0A]) w2
        (none, w3)

/-- The `Info` arguments of the `Update` calls of a trace, in call order. -/
def updateCalls : List Event → List Info
  | [] => []
  | Event.update _ info _ _ :: rest => info :: updateCalls rest
  | _ :: rest => updateCalls rest

/-- The text of a label argument before its first `=`. -/
def labelKey (labelArg : GoString) : GoString :=
  labelArg.takeWhile fun c => c ≠ 0x3D

/-- All the text of a label argument after its first `=`. -/
def labelValue (labelArg : GoString) : GoString :=
  (labelArg.dropWhile fun c => c ≠ 0x3D).drop 1

/-- The value that the label arguments give to `key`: that of the last argument
whose key it is, if there is one. -/
def lastLabel (key : GoString) : List GoString → Option GoString
  | [] => none
  | labelArg :: rest =>
    match lastLabel key rest with
    | some v => some v
    | none => if labelKey labelArg = key then some (labelValue labelArg) else none

/-- Options for the in-memory service: the default snapshotter and an output
stream that accepts every write. -/
def sampleUpdateOptions : SnapshotUpdateOptions (List Info) :=
  { Stdout := fun _ s => (none, s)
    Snapshotter := [] }

/-- A snapshot with two labels. -/
def labelledSnapshots : List Info :=
  [ { Kind := Kind.KindCommitted, Name := str "snap", Parent := [],
      Labels := some [(str "a", str "1"), (str "b", str "2")] } ]

/-- Lines 69-78 of `CreateDiff` read off the service, after `Stat` of the target
gave `info` and the state `s1`: without `removeTopLayer` the parent is
`info.Parent` and nothing is called; with it, `Stat` of `info.Parent` succeeded
with `secondInfo` and the parent is `secondInfo.Parent` if that is non-empty,
`info.Parent` otherwise. `s2` is the state afterwards and `pre` the calls made
up to there. -/
def ParentSelected {σ : Type} (sn : Snapshotter σ) (ctx : Context) (snapshotID : GoString)
    (info : Info) (removeTopLayer : Bool) (s1 : σ) (parent : GoString) (s2 : σ)
    (pre : List Event) : Prop :=
  (removeTopLayer = false ∧ parent = info.Parent ∧ s2 = s1 ∧
    pre = [Event.stat ctx snapshotID (Except.ok info)])
  ∨ (removeTopLayer = true ∧ ∃ secondInfo,
    sn.Stat ctx info.Parent s1 = (Except.ok secondInfo, s2) ∧
    parent = (if secondInfo.Parent ≠ [] then secondInfo.Parent else info.Parent) ∧
    pre = [Event.stat ctx snapshotID (Except.ok info),
      Event.stat ctx info.Parent (Except.ok secondInfo)])

/-- The in-memory service with a `Mounts` that always fails. -/
def brokenMounts : Snapshotter (List Info) :=
  { memSnapshotter with
    Mounts := fun _ _ s => (Except.error (Error.upstream (str "i/o error")), s) }

/-- The sample snapshots together with a view that already holds the key the
sample oracle gives to the lower view of `ctr`. -/
def busySnapshots : List Info :=
  sampleSnapshots ++
    [ { Kind := Kind.KindView, Name := str "layer-parent-view-1-aaaa", Parent := str "layer",
        Labels := none } ]

/-! # Theorems -/

section CreateDiffPaths
variable {σ : Type}

theorem selectParent_paths (sn : Snapshotter σ) (ctx : Context) (info : Info)
    (removeTopLayer : Bool) (w : World σ) :
    (removeTopLayer = false ∧
      selectParent sn ctx info removeTopLayer w = (Except.ok info.Parent, w)) ∨
    (removeTopLayer = true ∧ ∃ e s1,
      sn.Stat ctx info.Parent w.state = (Except.error e, s1) ∧
      selectParent sn ctx info removeTopLayer w =
        (Except.error e, ⟨s1, w.trace ++ [Event.stat ctx info.Parent (Except.error e)]⟩)) ∨
    (removeTopLayer = true ∧ ∃ secondInfo s1,
      sn.Stat ctx info.Parent w.state = (Except.ok secondInfo, s1) ∧
      selectParent sn ctx info removeTopLayer w =
        (Except.ok (if secondInfo.Parent ≠ [] then secondInfo.Parent else info.Parent),
          ⟨s1, w.trace ++ [Event.stat ctx info.Parent (Except.ok secondInfo)]⟩)) := by
  cases removeTopLayer
  · left; simp [selectParent]
  · right
    rcases h : sn.Stat ctx info.Parent w.state with ⟨r, s1⟩
    cases r with
    | error e => left; exact ⟨rfl, e, s1, rfl, by simp [selectParent, callStat, h]⟩
    | ok secondInfo =>
      right
      refine ⟨rfl, secondInfo, s1, rfl, ?_⟩
      by_cases hp : secondInfo.Parent = [] <;> simp [selectParent, callStat, h, hp]

theorem diffUpper_paths (sn : Snapshotter σ) (d : Comparer σ) (ctx : Context)
    (o : Oracle) (snapshotID : GoString) (info : Info) (lower : List Mount)
    (opts : List DiffOpt) (w : World σ) :
    (info.Kind = Kind.KindActive ∧ ∃ e s1,
      sn.Mounts ctx snapshotID w.state = (Except.error e, s1) ∧
      diffUpper sn d ctx o snapshotID info lower opts w =
        (({}, some e), ⟨s1, w.trace ++ [Event.mounts ctx snapshotID (Except.error e)]⟩)) ∨
    (info.Kind = Kind.KindActive ∧ ∃ upper s1 r s2,
      sn.Mounts ctx snapshotID w.state = (Except.ok upper, s1) ∧
      d.Compare ctx lower upper opts s1 = (r, s2) ∧
      diffUpper sn d ctx o snapshotID info lower opts w =
        (r, ⟨s2, w.trace ++ [Event.mounts ctx snapshotID (Except.ok upper),
          Event.compare ctx lower upper opts r]⟩)) ∨
    (info.Kind ≠ Kind.KindActive ∧ ∃ e s1,
      sn.View ctx (upperKeyOf snapshotID o.upperUnique) snapshotID w.state
        = (Except.error e, s1) ∧
      diffUpper sn d ctx o snapshotID info lower opts w =
        (({}, some e), ⟨s1, w.trace ++
          [Event.view ctx (upperKeyOf snapshotID o.upperUnique) snapshotID (Except.error e)]⟩)) ∨
    (info.Kind ≠ Kind.KindActive ∧ ∃ upper s1 r s2 re s3,
      sn.View ctx (upperKeyOf snapshotID o.upperUnique) snapshotID w.state
        = (Except.ok upper, s1) ∧
      d.Compare ctx lower upper opts s1 = (r, s2) ∧
      sn.Remove (cleanupCtx ctx o.upperCleanupTime) (upperKeyOf snapshotID o.upperUnique) s2
        = (re, s3) ∧
      diffUpper sn d ctx o snapshotID info lower opts w =
        (r, ⟨s3, w.trace ++
          [Event.view ctx (upperKeyOf snapshotID o.upperUnique) snapshotID (Except.ok upper),
           Event.compare ctx lower upper opts r,
           Event.remove (cleanupCtx ctx o.upperCleanupTime)
             (upperKeyOf snapshotID o.upperUnique) re]⟩)) := by
  by_cases hk : info.Kind = Kind.KindActive
  · rcases h : sn.Mounts ctx snapshotID w.state with ⟨r, s1⟩
    cases r with
    | error e => left; exact ⟨hk, e, s1, rfl, by simp [diffUpper, callMounts, h, hk]⟩
    | ok upper =>
      right; left
      rcases hc : d.Compare ctx lower upper opts s1 with ⟨r, s2⟩
      exact ⟨hk, upper, s1, r, s2, rfl, hc, by simp [diffUpper, callMounts, callCompare, h, hk, hc]⟩
  · right; right
    rcases h : sn.View ctx (upperKeyOf snapshotID o.upperUnique) snapshotID w.state with ⟨r, s1⟩
    cases r with
    | error e => left; exact ⟨hk, e, s1, rfl, by simp [diffUpper, callView, h, hk]⟩
    | ok upper =>
      right
      rcases hc : d.Compare ctx lower upper opts s1 with ⟨r, s2⟩
      rcases hr : sn.Remove (cleanupCtx ctx o.upperCleanupTime)
        (upperKeyOf snapshotID o.upperUnique) s2 with ⟨re, s3⟩
      refine ⟨hk, upper, s1, r, s2, re, s3, rfl, hc, hr, ?_⟩
      simp only [cleanupCtx] at hr
      simp [diffUpper, callView, callCompare, callRemove, Do, cleanupCtx, h, hk, hc, hr]

theorem CreateDiff_paths (ctx : Context) (snapshotID : GoString) (sn : Snapshotter σ)
    (d : Comparer σ) (removeTopLayer : Bool) (opts : List DiffOpt) (o : Oracle) (s : σ) :
    (∃ e s1, sn.Stat ctx snapshotID s = (Except.error e, s1) ∧
      CreateDiff ctx snapshotID sn d removeTopLayer opts o (start s) =
        (({}, some e), ⟨s1, [Event.stat ctx snapshotID (Except.error e)]⟩)) ∨
    (∃ info s1, sn.Stat ctx snapshotID s = (Except.ok info, s1) ∧
      ((∃ e w2,
        selectParent sn ctx info removeTopLayer
          ⟨s1, [Event.stat ctx snapshotID (Except.ok info)]⟩ = (Except.error e, w2) ∧
        CreateDiff ctx snapshotID sn d removeTopLayer opts o (start s) = (({}, some e), w2)) ∨
      (∃ parent w2,
        selectParent sn ctx info removeTopLayer
          ⟨s1, [Event.stat ctx snapshotID (Except.ok info)]⟩ = (Except.ok parent, w2) ∧
        ((∃ e s3,
          sn.View ctx (lowerKeyOf parent o.lowerUnique) parent w2.state = (Except.error e, s3) ∧
          CreateDiff ctx snapshotID sn d removeTopLayer opts o (start s) =
            (({}, some e), ⟨s3, w2.trace ++
              [Event.view ctx (lowerKeyOf parent o.lowerUnique) parent (Except.error e)]⟩)) ∨
        (∃ lower s3 r w4 re s5,
          sn.View ctx (lowerKeyOf parent o.lowerUnique) parent w2.state = (Except.ok lower, s3) ∧
          diffUpper sn d ctx o snapshotID info lower opts
            ⟨s3, w2.trace ++
              [Event.view ctx (lowerKeyOf parent o.lowerUnique) parent (Except.ok lower)]⟩
            = (r, w4) ∧
          sn.Remove (cleanupCtx ctx o.lowerCleanupTime) (lowerKeyOf parent o.lowerUnique) w4.state
            = (re, s5) ∧
          CreateDiff ctx snapshotID sn d removeTopLayer opts o (start s) =
            (r, ⟨s5, w4.trace ++
              [Event.remove (cleanupCtx ctx o.lowerCleanupTime)
                (lowerKeyOf parent o.lowerUnique) re]⟩)))))) := by
  rcases h1 : sn.Stat ctx snapshotID s with ⟨r1, s1⟩
  cases r1 with
  | error e =>
    left
    exact ⟨e, s1, rfl, by simp [CreateDiff, callStat, start, h1]⟩
  | ok info =>
    right
    refine ⟨info, s1, rfl, ?_⟩
    rcases h2 : selectParent sn ctx info removeTopLayer
      ⟨s1, [Event.stat ctx snapshotID (Except.ok info)]⟩ with ⟨r2, w2⟩
    cases r2 with
    | error e =>
      left
      exact ⟨e, w2, rfl, by simp [CreateDiff, callStat, start, h1, h2]⟩
    | ok parent =>
      right
      refine ⟨parent, w2, rfl, ?_⟩
      rcases h3 : sn.View ctx (lowerKeyOf parent o.lowerUnique) parent w2.state with ⟨r3, s3⟩
      cases r3 with
      | error e =>
        left
        exact ⟨e, s3, rfl, by simp [CreateDiff, callStat, callView, start, h1, h2, h3]⟩
      | ok lower =>
        right
        rcases h4 : diffUpper sn d ctx o snapshotID info lower opts
          ⟨s3, w2.trace ++
            [Event.view ctx (lowerKeyOf parent o.lowerUnique) parent (Except.ok lower)]⟩
          with ⟨r, w4⟩
        rcases h5 : sn.Remove (cleanupCtx ctx o.lowerCleanupTime)
          (lowerKeyOf parent o.lowerUnique) w4.state with ⟨re, s5⟩
        refine ⟨lower, s3, r, w4, re, s5, rfl, h4, h5, ?_⟩
        simp only [cleanupCtx] at h5
        simp [CreateDiff, callStat, callView, callRemove, Do, cleanupCtx, start, h1, h2, h3,
          h4, h5]

end CreateDiffPaths

section TraceLemmas

theorem openedKeys_append (a b : List Event) :
    openedKeys (a ++ b) = openedKeys a ++ openedKeys b := by
  induction a with
  | nil => rfl
  | cons e t ih =>
    cases e with
    | view c k p r => cases r <;> simp [openedKeys, ih]
    | _ => simp [openedKeys, ih]

theorem removedKeys_append (a b : List Event) :
    removedKeys (a ++ b) = removedKeys a ++ removedKeys b := by
  induction a with
  | nil => rfl
  | cons e t ih => cases e <;> simp [removedKeys, ih]

theorem removeErrors_append (a b : List Event) :
    removeErrors (a ++ b) = removeErrors a ++ removeErrors b := by
  induction a with
  | nil => rfl
  | cons e t ih =>
    cases e with
    | remove c k r => cases r <;> simp [removeErrors, ih]
    | _ => simp [removeErrors, ih]

end TraceLemmas

section CreateDiffSummary
variable {σ : Type}

theorem openedKeys_of_stats (evs : List Event) (h : ∀ e ∈ evs, e.isStat = true) :
    openedKeys evs = [] := by
  induction evs with
  | nil => rfl
  | cons e t ih =>
    have he := h e (List.mem_cons_self _ _)
    cases e <;> simp [Event.isStat] at he
    simp only [openedKeys]
    exact ih fun x hx => h x (List.mem_cons_of_mem _ hx)

theorem removedKeys_of_stats (evs : List Event) (h : ∀ e ∈ evs, e.isStat = true) :
    removedKeys evs = [] := by
  induction evs with
  | nil => rfl
  | cons e t ih =>
    have he := h e (List.mem_cons_self _ _)
    cases e <;> simp [Event.isStat] at he
    simp only [removedKeys]
    exact ih fun x hx => h x (List.mem_cons_of_mem _ hx)

theorem removeErrors_of_stats (evs : List Event) (h : ∀ e ∈ evs, e.isStat = true) :
    removeErrors evs = [] := by
  induction evs with
  | nil => rfl
  | cons e t ih =>
    have he := h e (List.mem_cons_self _ _)
    cases e <;> simp [Event.isStat] at he
    simp only [removeErrors]
    exact ih fun x hx => h x (List.mem_cons_of_mem _ hx)

theorem isRemove_of_isStat (e : Event) (h : e.isStat = true) : e.isRemove = false := by
  cases e <;> simp_all [Event.isStat, Event.isRemove]

/-- The choice of the parent only issues `Stat` calls. -/
theorem selectParent_summary (sn : Snapshotter σ) (ctx : Context) (info : Info)
    (removeTopLayer : Bool) (w : World σ) :
    ∃ evs, (selectParent sn ctx info removeTopLayer w).2.trace = w.trace ++ evs ∧
      (∀ e ∈ evs, e.isStat = true) ∧
      (∀ (d : Comparer σ) (views : σ → Finset GoString), ViewLaws sn d views →
        views (selectParent sn ctx info removeTopLayer w).2.state = views w.state) := by
  rcases selectParent_paths sn ctx info removeTopLayer w with
    ⟨_, h⟩ | ⟨_, e, s1, hs, h⟩ | ⟨_, i2, s1, hs, h⟩
  · exact ⟨[], by simp [h], by simp, fun d views _ => by simp [h]⟩
  · refine ⟨[Event.stat ctx info.Parent (Except.error e)], by simp [h],
      by simp [Event.isStat], fun d views L => ?_⟩
    have := L.stat ctx info.Parent w.state
    rw [hs] at this
    simpa [h] using this
  · refine ⟨[Event.stat ctx info.Parent (Except.ok i2)], by simp [h],
      by simp [Event.isStat], fun d views L => ?_⟩
    have := L.stat ctx info.Parent w.state
    rw [hs] at this
    simpa [h] using this

/-- The choice of the parent fails only when `removeTopLayer` is set and the
`Stat` of the parent fails. -/
theorem selectParent_error (sn : Snapshotter σ) (ctx : Context) (info : Info)
    (removeTopLayer : Bool) (w w2 : World σ) (e : Error)
    (h : selectParent sn ctx info removeTopLayer w = (Except.error e, w2)) :
    removeTopLayer = true ∧ ∃ s2, sn.Stat ctx info.Parent w.state = (Except.error e, s2) := by
  rcases selectParent_paths sn ctx info removeTopLayer w with
    ⟨_, g⟩ | ⟨ht, e', s2, hs, g⟩ | ⟨_, i2, s2, _, g⟩
  · rw [h] at g; simp at g
  · rw [h] at g
    obtain ⟨he, _⟩ := Prod.mk.inj g
    have : e = e' := by injection he
    subst this
    exact ⟨ht, s2, hs⟩
  · rw [h] at g; simp at g

/-- The six ways a run of `CreateDiff` can go once `Stat` of the target has
succeeded, each with its complete trace and its result. -/
theorem CreateDiff_shape (ctx : Context) (snapshotID : GoString)
    (sn : Snapshotter σ) (d : Comparer σ) (removeTopLayer : Bool) (opts : List DiffOpt)
    (o : Oracle) (s s1 : σ) (info : Info)
    (hstat : sn.Stat ctx snapshotID s = (Except.ok info, s1)) :
    ∃ pre : List Event, (∀ e ∈ pre, e.isStat = true) ∧
    ((∃ e s2, removeTopLayer = true ∧
        sn.Stat ctx info.Parent s1 = (Except.error e, s2) ∧
        (CreateDiff ctx snapshotID sn d removeTopLayer opts o (start s)).2.trace = pre ∧
        (CreateDiff ctx snapshotID sn d removeTopLayer opts o (start s)).1 = ({}, some e)) ∨
     (∃ parent e,
        (CreateDiff ctx snapshotID sn d removeTopLayer opts o (start s)).2.trace = pre ++
          [Event.view ctx (lowerKeyOf parent o.lowerUnique) parent (Except.error e)] ∧
        (CreateDiff ctx snapshotID sn d removeTopLayer opts o (start s)).1 = ({}, some e)) ∨
     (info.Kind = Kind.KindActive ∧ ∃ parent lower e re,
        (CreateDiff ctx snapshotID sn d removeTopLayer opts o (start s)).2.trace = pre ++
          [Event.view ctx (lowerKeyOf parent o.lowerUnique) parent (Except.ok lower),
           Event.mounts ctx snapshotID (Except.error e),
           Event.remove (cleanupCtx ctx o.lowerCleanupTime)
             (lowerKeyOf parent o.lowerUnique) re] ∧
        (CreateDiff ctx snapshotID sn d removeTopLayer opts o (start s)).1 = ({}, some e)) ∨
     (info.Kind = Kind.KindActive ∧ ∃ parent lower upper r re,
        (CreateDiff ctx snapshotID sn d removeTopLayer opts o (start s)).2.trace = pre ++
          [Event.view ctx (lowerKeyOf parent o.lowerUnique) parent (Except.ok lower),
           Event.mounts ctx snapshotID (Except.ok upper),
           Event.compare ctx lower upper opts r,
           Event.remove (cleanupCtx ctx o.lowerCleanupTime)
             (lowerKeyOf parent o.lowerUnique) re] ∧
        (CreateDiff ctx snapshotID sn d removeTopLayer opts o (start s)).1 = r) ∨
     (info.Kind ≠ Kind.KindActive ∧ ∃ parent lower e re,
        (CreateDiff ctx snapshotID sn d removeTopLayer opts o (start s)).2.trace = pre ++
          [Event.view ctx (lowerKeyOf parent o.lowerUnique) parent (Except.ok lower),
           Event.view ctx (upperKeyOf snapshotID o.upperUnique) snapshotID (Except.error e),
           Event.remove (cleanupCtx ctx o.lowerCleanupTime)
             (lowerKeyOf parent o.lowerUnique) re] ∧
        (CreateDiff ctx snapshotID sn d removeTopLayer opts o (start s)).1 = ({}, some e)) ∨
     (info.Kind ≠ Kind.KindActive ∧ ∃ parent lower upper r re1 re,
        (CreateDiff ctx snapshotID sn d removeTopLayer opts o (start s)).2.trace = pre ++
          [Event.view ctx (lowerKeyOf parent o.lowerUnique) parent (Except.ok lower),
           Event.view ctx (upperKeyOf snapshotID o.upperUnique) snapshotID (Except.ok upper),
           Event.compare ctx lower upper opts r,
           Event.remove (cleanupCtx ctx o.upperCleanupTime)
             (upperKeyOf snapshotID o.upperUnique) re1,
           Event.remove (cleanupCtx ctx o.lowerCleanupTime)
             (lowerKeyOf parent o.lowerUnique) re] ∧
        (CreateDiff ctx snapshotID sn d removeTopLayer opts o (start s)).1 = r)) := by
  rcases CreateDiff_paths ctx snapshotID sn d removeTopLayer opts o s with
    ⟨e, t1, h1, _⟩ | ⟨info', t1, h1, hrest⟩
  · rw [hstat] at h1; simp at h1
  rw [hstat] at h1
  obtain ⟨hi, hs⟩ := Prod.mk.inj h1
  have hi' : info = info' := by injection hi
  subst hi' hs
  obtain ⟨evs, htr, hst, -⟩ := selectParent_summary sn ctx info removeTopLayer
    ⟨s1, [Event.stat ctx snapshotID (Except.ok info)]⟩
  refine ⟨[Event.stat ctx snapshotID (Except.ok info)] ++ evs, ?_, ?_⟩
  · intro e he
    rcases List.mem_append.1 he with h | h
    · simp at h; subst h; rfl
    · exact hst e h
  rcases hrest with ⟨e, w2, h2, hout⟩ | ⟨parent, w2, h2, hrest⟩
  · left
    obtain ⟨ht, s2, hs2⟩ := selectParent_error sn ctx info removeTopLayer _ w2 e h2
    rw [h2] at htr
    exact ⟨e, s2, ht, hs2, by rw [hout]; exact htr, by rw [hout]⟩
  rw [h2] at htr
  simp only at htr
  right
  rcases hrest with ⟨e, s3, h3, hout⟩ | ⟨lower, s3, r, w4, re, s5, h3, h4, h5, hout⟩
  · left
    exact ⟨parent, e, by rw [hout, htr], by rw [hout]⟩
  right
  rcases diffUpper_paths sn d ctx o snapshotID info lower opts
    ⟨s3, w2.trace ++
      [Event.view ctx (lowerKeyOf parent o.lowerUnique) parent (Except.ok lower)]⟩ with
    ⟨hk, e, t1, g1, g⟩ | ⟨hk, upper, t1, r', t2, g1, g2, g⟩ | ⟨hk, e, t1, g1, g⟩ |
    ⟨hk, upper, t1, r', t2, re', t3, g1, g2, g3, g⟩
  · left
    rw [h4] at g
    obtain ⟨rfl, rfl⟩ := Prod.mk.inj g
    exact ⟨hk, parent, lower, e, re, by rw [hout, htr]; simp, by rw [hout]⟩
  · right; left
    rw [h4] at g
    obtain ⟨rfl, rfl⟩ := Prod.mk.inj g
    exact ⟨hk, parent, lower, upper, r, re, by rw [hout, htr]; simp, by rw [hout]⟩
  · right; right; left
    rw [h4] at g
    obtain ⟨rfl, rfl⟩ := Prod.mk.inj g
    exact ⟨hk, parent, lower, e, re, by rw [hout, htr]; simp, by rw [hout]⟩
  · right; right; right
    rw [h4] at g
    obtain ⟨rfl, rfl⟩ := Prod.mk.inj g
    exact ⟨hk, parent, lower, upper, r, re', re, by rw [hout, htr]; simp, by rw [hout]⟩

theorem lookupSnapshot_isSome (key : GoString) (s : List Info) :
    (lookupSnapshot key s).isSome = true ↔ ∃ i ∈ s, i.Name = key := by
  induction s with
  | nil => simp [lookupSnapshot]
  | cons i rest ih =>
    by_cases h : i.Name = key
    · simp [lookupSnapshot, h]
    · simp [lookupSnapshot, h, ih]

/-- The in-memory service keeps its set of views as `ViewLaws` asks. -/
theorem memSnapshotter_laws : ViewLaws memSnapshotter memComparer memViews where
  stat := by
    intro c k s
    simp only [memSnapshotter]
    split <;> rfl
  mounts := by
    intro c k s
    simp only [memSnapshotter]
    split <;> rfl
  compare := by
    intro c l u o s
    rfl
  view_ok := by
    intro c k p s m h
    simp only [memSnapshotter] at h ⊢
    by_cases h1 : (lookupSnapshot k s).isSome = true
    · simp [h1] at h
    · by_cases h2 : p ≠ [] ∧ (lookupSnapshot p s).isNone = true
      · rw [if_neg h1, if_pos h2] at h
        simp at h
      · rw [if_neg h1, if_neg h2]
        have hk : ∀ i ∈ s, i.Name ≠ k := by
          intro i hi hn
          exact h1 ((lookupSnapshot_isSome k s).2 ⟨i, hi, hn⟩)
        constructor
        · simp only [memViews, List.mem_toFinset, List.mem_map, List.mem_filter]
          rintro ⟨i, ⟨hi, _⟩, hn⟩
          exact hk i hi hn
        · ext x
          simp [memViews, List.filter_cons]
  view_error := by
    intro c k p s e h
    simp only [memSnapshotter] at h ⊢
    by_cases h1 : (lookupSnapshot k s).isSome = true
    · rw [if_pos h1]
    · by_cases h2 : p ≠ [] ∧ (lookupSnapshot p s).isNone = true
      · rw [if_neg h1, if_pos h2]
      · rw [if_neg h1, if_neg h2] at h
        simp at h
  remove_ok := by
    intro c k s h
    simp only [memSnapshotter] at h ⊢
    cases hl : lookupSnapshot k s with
    | none => simp [hl] at h
    | some i =>
      simp only [hl]
      ext x
      simp only [memViews, List.mem_toFinset, List.mem_map, List.mem_filter, Finset.mem_erase]
      constructor
      · rintro ⟨j, ⟨⟨hj, hn⟩, hv⟩, rfl⟩
        exact ⟨by simpa using hn, j, ⟨hj, hv⟩, rfl⟩
      · rintro ⟨hx, j, ⟨hj, hv⟩, rfl⟩
        exact ⟨j, ⟨⟨hj, by simpa using hx⟩, hv⟩, rfl⟩

end CreateDiffSummary

section CreateDiffClaims
variable {σ : Type}

/-- C1: every `View` call of `CreateDiff` that succeeds is matched by exactly
one `Remove` call on its key before `CreateDiff` returns, on every path: the
keys removed are the keys opened, last opened first; all `Remove` calls come
after every other call; at most two views are opened, and at most one (the
lower one) when the target is Active; the keys removed are none, the lower key,
or the upper key and then the lower key. Consequently, for a service that keeps
a set of views, when no `Remove` fails the set of views after the call is the
set before it. -/
theorem CreateDiff_removes_every_opened_view (ctx : Context) (snapshotID : GoString)
    (sn : Snapshotter σ) (d : Comparer σ) (removeTopLayer : Bool) (opts : List DiffOpt)
    (o : Oracle) (s : σ) :
    removedKeys (CreateDiff ctx snapshotID sn d removeTopLayer opts o (start s)).2.trace
      = (openedKeys (CreateDiff ctx snapshotID sn d removeTopLayer opts o (start s)).2.trace).reverse
    ∧ (∀ k,
        (removedKeys (CreateDiff ctx snapshotID sn d removeTopLayer opts o (start s)).2.trace).count k
        = (openedKeys (CreateDiff ctx snapshotID sn d removeTopLayer opts o (start s)).2.trace).count k)
    ∧ (CreateDiff ctx snapshotID sn d removeTopLayer opts o (start s)).2.trace
        = (CreateDiff ctx snapshotID sn d removeTopLayer opts o (start s)).2.trace.filter
            (fun e => !e.isRemove)
          ++ (CreateDiff ctx snapshotID sn d removeTopLayer opts o (start s)).2.trace.filter
            (fun e => e.isRemove)
    ∧ (openedKeys (CreateDiff ctx snapshotID sn d removeTopLayer opts o (start s)).2.trace).length ≤ 2
    ∧ (∀ info s1, sn.Stat ctx snapshotID s = (Except.ok info, s1) → info.Kind = Kind.KindActive →
        (openedKeys (CreateDiff ctx snapshotID sn d removeTopLayer opts o (start s)).2.trace).length ≤ 1)
    ∧ (∀ views : σ → Finset GoString, ViewLaws sn d views →
        removeErrors (CreateDiff ctx snapshotID sn d removeTopLayer opts o (start s)).2.trace = [] →
        views (CreateDiff ctx snapshotID sn d removeTopLayer opts o (start s)).2.state = views s)
    ∧ (∃ parent,
        removedKeys (CreateDiff ctx snapshotID sn d removeTopLayer opts o (start s)).2.trace = []
        ∨ removedKeys (CreateDiff ctx snapshotID sn d removeTopLayer opts o (start s)).2.trace
          = [lowerKeyOf parent o.lowerUnique]
        ∨ removedKeys (CreateDiff ctx snapshotID sn d removeTopLayer opts o (start s)).2.trace
          = [upperKeyOf snapshotID o.upperUnique, lowerKeyOf parent o.lowerUnique]) := by
  have hkeys : ∃ parent,
      removedKeys (CreateDiff ctx snapshotID sn d removeTopLayer opts o (start s)).2.trace = []
      ∨ removedKeys (CreateDiff ctx snapshotID sn d removeTopLayer opts o (start s)).2.trace
        = [lowerKeyOf parent o.lowerUnique]
      ∨ removedKeys (CreateDiff ctx snapshotID sn d removeTopLayer opts o (start s)).2.trace
        = [upperKeyOf snapshotID o.upperUnique, lowerKeyOf parent o.lowerUnique] := by
    rcases hst : sn.Stat ctx snapshotID s with ⟨r0, s0⟩
    cases r0 with
    | error e =>
      refine ⟨[], Or.inl ?_⟩
      simp [CreateDiff, callStat, start, hst, removedKeys]
    | ok info =>
      obtain ⟨pre, hpre, hshape⟩ := CreateDiff_shape ctx snapshotID sn d removeTopLayer opts o
        s s0 info hst
      have hR := removedKeys_of_stats pre hpre
      rcases hshape with ⟨e, s2, _, _, htr, _⟩ | ⟨parent, e, htr, _⟩ |
        ⟨_, parent, lower, e, re, htr, _⟩ | ⟨_, parent, lower, upper, r, re, htr, _⟩ |
        ⟨_, parent, lower, e, re, htr, _⟩ | ⟨_, parent, lower, upper, r, re1, re, htr, _⟩
      · exact ⟨[], Or.inl (by rw [htr, hR])⟩
      · exact ⟨parent, Or.inl (by rw [htr]; simp [removedKeys_append, hR, removedKeys])⟩
      · exact ⟨parent, Or.inr (Or.inl (by
          rw [htr]; simp [removedKeys_append, hR, removedKeys]))⟩
      · exact ⟨parent, Or.inr (Or.inl (by
          rw [htr]; simp [removedKeys_append, hR, removedKeys]))⟩
      · exact ⟨parent, Or.inr (Or.inl (by
          rw [htr]; simp [removedKeys_append, hR, removedKeys]))⟩
      · exact ⟨parent, Or.inr (Or.inr (by
          rw [htr]; simp [removedKeys_append, hR, removedKeys]))⟩
  have count_of_reverse : ∀ a b : List GoString, a = b.reverse → ∀ k, a.count k = b.count k := by
    intro a b h k
    rw [h, List.count_reverse]
  suffices key :
      removedKeys (CreateDiff ctx snapshotID sn d removeTopLayer opts o (start s)).2.trace
        = (openedKeys (CreateDiff ctx snapshotID sn d removeTopLayer opts o (start s)).2.trace).reverse
      ∧ (CreateDiff ctx snapshotID sn d removeTopLayer opts o (start s)).2.trace
        = (CreateDiff ctx snapshotID sn d removeTopLayer opts o (start s)).2.trace.filter
            (fun e => !e.isRemove)
          ++ (CreateDiff ctx snapshotID sn d removeTopLayer opts o (start s)).2.trace.filter
            (fun e => e.isRemove)
      ∧ (openedKeys (CreateDiff ctx snapshotID sn d removeTopLayer opts o (start s)).2.trace).length ≤ 2
      ∧ (∀ info s1, sn.Stat ctx snapshotID s = (Except.ok info, s1) → info.Kind = Kind.KindActive →
        (openedKeys (CreateDiff ctx snapshotID sn d removeTopLayer opts o (start s)).2.trace).length ≤ 1)
      ∧ (∀ views : σ → Finset GoString, ViewLaws sn d views →
        removeErrors (CreateDiff ctx snapshotID sn d removeTopLayer opts o (start s)).2.trace = [] →
        views (CreateDiff ctx snapshotID sn d removeTopLayer opts o (start s)).2.state = views s) by
    exact ⟨key.1, count_of_reverse _ _ key.1, key.2.1, key.2.2.1, key.2.2.2.1, key.2.2.2.2, hkeys⟩
  rcases CreateDiff_paths ctx snapshotID sn d removeTopLayer opts o s with
    ⟨e, s1, h1, hout⟩ | ⟨info, s1, h1, hrest⟩
  · -- the first Stat fails
    rw [hout]
    refine ⟨by simp [removedKeys, openedKeys], by simp [Event.isRemove],
      by simp [openedKeys], ?_, ?_⟩
    · intro info s1' h; simp [openedKeys]
    · intro views L _
      have := L.stat ctx snapshotID s
      rw [h1] at this
      simpa using this
  · have hs1 : ∀ views : σ → Finset GoString, ViewLaws sn d views → views s1 = views s := by
      intro views L
      have := L.stat ctx snapshotID s
      rw [h1] at this
      simpa using this
    obtain ⟨evs, htr, hstat, hviews⟩ := selectParent_summary sn ctx info removeTopLayer
      ⟨s1, [Event.stat ctx snapshotID (Except.ok info)]⟩
    have hO := openedKeys_of_stats evs hstat
    have hR := removedKeys_of_stats evs hstat
    have hE := removeErrors_of_stats evs hstat
    have hF1 : evs.filter (fun e => !e.isRemove) = evs := by
      rw [List.filter_eq_self]
      intro e he
      simp [isRemove_of_isStat e (hstat e he)]
    have hF2 : evs.filter (fun e => e.isRemove) = [] := by
      rw [List.filter_eq_nil_iff]
      intro e he
      simp [isRemove_of_isStat e (hstat e he)]
    rcases hrest with ⟨e, w2, h2, hout⟩ | ⟨parent, w2, h2, hrest⟩
    · -- the Stat of the parent fails
      rw [h2] at htr hviews
      simp only at htr hviews
      rw [hout]
      simp only [htr]
      refine ⟨by simp [removedKeys_append, openedKeys_append, removedKeys, openedKeys, hO, hR],
        by simp only [List.filter_append, hF1, hF2]; simp [Event.isRemove],
        by simp [openedKeys_append, openedKeys, hO], ?_, ?_⟩
      · intro _ _ _ _; simp [openedKeys_append, openedKeys, hO]
      · intro views L _
        rw [hviews d views L]
        exact hs1 views L
    · rw [h2] at htr hviews
      simp only at htr hviews
      have hs2 : ∀ views : σ → Finset GoString, ViewLaws sn d views →
          views w2.state = views s := fun views L => by
        rw [hviews d views L]; exact hs1 views L
      rcases hrest with ⟨e, s3, h3, hout⟩ | ⟨lower, s3, r, w4, re, s5, h3, h4, h5, hout⟩
      · -- the lower View fails
        rw [hout]
        simp only [htr]
        refine ⟨by simp [removedKeys_append, openedKeys_append, removedKeys, openedKeys, hO, hR],
          by simp only [List.filter_append, hF1, hF2]; simp [Event.isRemove],
          by simp [openedKeys_append, openedKeys, hO], ?_, ?_⟩
        · intro _ _ _ _; simp [openedKeys_append, openedKeys, hO]
        · intro views L _
          have := L.view_error ctx (lowerKeyOf parent o.lowerUnique) parent w2.state e
            (by rw [h3])
          rw [h3] at this
          simp only at this
          rw [this]
          exact hs2 views L
      · -- the lower view is open
        have hv3 := fun (views : σ → Finset GoString) (L : ViewLaws sn d views) =>
          L.view_ok ctx (lowerKeyOf parent o.lowerUnique) parent w2.state lower (by rw [h3])
        rw [h3] at hv3
        simp only at hv3
        rcases diffUpper_paths sn d ctx o snapshotID info lower opts
          ⟨s3, w2.trace ++
            [Event.view ctx (lowerKeyOf parent o.lowerUnique) parent (Except.ok lower)]⟩ with
          ⟨hk, e, t1, g1, g⟩ | ⟨hk, upper, t1, r', t2, g1, g2, g⟩ | ⟨hk, e, t1, g1, g⟩ |
          ⟨hk, upper, t1, r', t2, re', t3, g1, g2, g3, g⟩
        · -- Active target, Mounts fails
          rw [h4] at g
          obtain ⟨rfl, rfl⟩ := Prod.mk.inj g
          rw [hout]
          simp only [htr]
          simp only at h5 g1
          refine ⟨by simp [removedKeys_append, openedKeys_append, removedKeys, openedKeys, hO, hR],
            by simp only [List.filter_append, hF1, hF2]; simp [Event.isRemove],
            by simp [openedKeys_append, openedKeys, hO], ?_, ?_⟩
          · intro _ _ _ _; simp [openedKeys_append, openedKeys, hO]
          · intro views L hre
            have hnone : re = none := by
              cases re with
              | none => rfl
              | some x => simp [removeErrors_append, removeErrors, hE] at hre
            subst hnone
            have m1 := L.mounts ctx snapshotID s3
            rw [g1] at m1
            have m2 := L.remove_ok (cleanupCtx ctx o.lowerCleanupTime)
              (lowerKeyOf parent o.lowerUnique) t1 (by rw [h5])
            rw [h5] at m2
            simp only at m1 m2
            rw [m2, m1, (hv3 views L).2, Finset.erase_insert (hv3 views L).1]
            exact hs2 views L
        · -- Active target, the comparer runs
          rw [h4] at g
          obtain ⟨rfl, rfl⟩ := Prod.mk.inj g
          rw [hout]
          simp only [htr]
          simp only at h5 g1 g2
          refine ⟨by simp [removedKeys_append, openedKeys_append, removedKeys, openedKeys, hO, hR],
            by simp only [List.filter_append, hF1, hF2]; simp [Event.isRemove],
            by simp [openedKeys_append, openedKeys, hO], ?_, ?_⟩
          · intro _ _ _ _; simp [openedKeys_append, openedKeys, hO]
          · intro views L hre
            have hnone : re = none := by
              cases re with
              | none => rfl
              | some x => simp [removeErrors_append, removeErrors, hE] at hre
            subst hnone
            have m1 := L.mounts ctx snapshotID s3
            rw [g1] at m1
            have m0 := L.compare ctx lower upper opts t1
            rw [g2] at m0
            have m2 := L.remove_ok (cleanupCtx ctx o.lowerCleanupTime)
              (lowerKeyOf parent o.lowerUnique) t2 (by rw [h5])
            rw [h5] at m2
            simp only at m0 m1 m2
            rw [m2, m0, m1, (hv3 views L).2, Finset.erase_insert (hv3 views L).1]
            exact hs2 views L
        · -- target not Active, the upper View fails
          rw [h4] at g
          obtain ⟨rfl, rfl⟩ := Prod.mk.inj g
          rw [hout]
          simp only [htr]
          simp only at h5 g1
          refine ⟨by simp [removedKeys_append, openedKeys_append, removedKeys, openedKeys, hO, hR],
            by simp only [List.filter_append, hF1, hF2]; simp [Event.isRemove],
            by simp [openedKeys_append, openedKeys, hO], ?_, ?_⟩
          · intro _ _ _ _; simp [openedKeys_append, openedKeys, hO]
          · intro views L hre
            have hnone : re = none := by
              cases re with
              | none => rfl
              | some x => simp [removeErrors_append, removeErrors, hE] at hre
            subst hnone
            have m1 := L.view_error ctx (upperKeyOf snapshotID o.upperUnique) snapshotID s3 e
              (by rw [g1])
            rw [g1] at m1
            have m2 := L.remove_ok (cleanupCtx ctx o.lowerCleanupTime)
              (lowerKeyOf parent o.lowerUnique) t1 (by rw [h5])
            rw [h5] at m2
            simp only at m1 m2
            rw [m2, m1, (hv3 views L).2, Finset.erase_insert (hv3 views L).1]
            exact hs2 views L
        · -- target not Active, both views are open
          rw [h4] at g
          obtain ⟨rfl, rfl⟩ := Prod.mk.inj g
          rw [hout]
          simp only [htr]
          simp only at h5 g1 g2 g3
          refine ⟨by simp [removedKeys_append, openedKeys_append, removedKeys, openedKeys, hO, hR],
            by simp only [List.filter_append, hF1, hF2]; simp [Event.isRemove],
            by simp [openedKeys_append, openedKeys, hO], ?_, ?_⟩
          · intro info' s1' hst hact
            rw [h1] at hst
            obtain ⟨hi, _⟩ := Prod.mk.inj hst
            have : info = info' := by injection hi
            subst this
            exact absurd hact hk
          · intro views L hre
            have hnone' : re' = none := by
              cases re' with
              | none => rfl
              | some x => simp [removeErrors_append, removeErrors, hE] at hre
            subst hnone'
            have hnone : re = none := by
              cases re with
              | none => rfl
              | some x => simp [removeErrors_append, removeErrors, hE] at hre
            subst hnone
            have m1 := L.view_ok ctx (upperKeyOf snapshotID o.upperUnique) snapshotID s3 upper
              (by rw [g1])
            rw [g1] at m1
            have m0 := L.compare ctx lower upper opts t1
            rw [g2] at m0
            have m3 := L.remove_ok (cleanupCtx ctx o.upperCleanupTime)
              (upperKeyOf snapshotID o.upperUnique) t2 (by rw [g3])
            rw [g3] at m3
            have m2 := L.remove_ok (cleanupCtx ctx o.lowerCleanupTime)
              (lowerKeyOf parent o.lowerUnique) t3 (by rw [h5])
            rw [h5] at m2
            simp only at m0 m1 m2 m3
            rw [m2, m3, m0, m1.2, Finset.erase_insert m1.1, (hv3 views L).2,
              Finset.erase_insert (hv3 views L).1]
            exact hs2 views L

/-- Witness for C1 on the in-memory service: diffing the committed snapshot
`layer` under a cancelled context opens and removes two views and leaves the
set of views as it was; diffing the active snapshot `ctr` opens one view. -/
theorem CreateDiff_removes_every_opened_view_witness :
    ViewLaws memSnapshotter memComparer memViews
    ∧ removeErrors (CreateDiff cancelledCtx (str "layer") memSnapshotter memComparer false []
        sampleOracle (start sampleSnapshots)).2.trace = []
    ∧ memViews (CreateDiff cancelledCtx (str "layer") memSnapshotter memComparer false []
        sampleOracle (start sampleSnapshots)).2.state = memViews sampleSnapshots
    ∧ removedKeys (CreateDiff cancelledCtx (str "layer") memSnapshotter memComparer false []
        sampleOracle (start sampleSnapshots)).2.trace
        = [str "layer-view-2-bbbb", str "base-parent-view-1-aaaa"]
    ∧ memSnapshotter.Stat cancelledCtx (str "ctr") sampleSnapshots
        = (Except.ok
            { Kind := Kind.KindActive, Name := str "ctr", Parent := str "layer", Labels := none },
          sampleSnapshots)
    ∧ (openedKeys (CreateDiff cancelledCtx (str "ctr") memSnapshotter memComparer false []
        sampleOracle (start sampleSnapshots)).2.trace).length ≤ 1 :=
  ⟨memSnapshotter_laws, by rfl,
    (CreateDiff_removes_every_opened_view cancelledCtx (str "layer") memSnapshotter memComparer
      false [] sampleOracle sampleSnapshots).2.2.2.2.2.1 memViews memSnapshotter_laws (by rfl),
    by rfl, by rfl,
    (CreateDiff_removes_every_opened_view cancelledCtx (str "ctr") memSnapshotter memComparer
      false [] sampleOracle sampleSnapshots).2.2.2.2.1 _ _ (by rfl) (by rfl)⟩

end CreateDiffClaims

section LowerBound
variable {σ : Type}

theorem viewCalls_append (a b : List Event) :
    viewCalls (a ++ b) = viewCalls a ++ viewCalls b := by
  induction a with
  | nil => rfl
  | cons e t ih => cases e <;> simp [viewCalls, ih]

theorem statCalls_append (a b : List Event) :
    statCalls (a ++ b) = statCalls a ++ statCalls b := by
  induction a with
  | nil => rfl
  | cons e t ih => cases e <;> simp [statCalls, ih]

/-- The upper half of `CreateDiff` appends its calls to the trace and issues no
`Stat`. -/
theorem diffUpper_trace (sn : Snapshotter σ) (d : Comparer σ) (ctx : Context)
    (o : Oracle) (snapshotID : GoString) (info : Info) (lower : List Mount)
    (opts : List DiffOpt) (w : World σ) :
    ∃ evs, (diffUpper sn d ctx o snapshotID info lower opts w).2.trace = w.trace ++ evs ∧
      statCalls evs = [] := by
  rcases diffUpper_paths sn d ctx o snapshotID info lower opts w with
    ⟨_, e, t1, _, g⟩ | ⟨_, upper, t1, r, t2, _, _, g⟩ | ⟨_, e, t1, _, g⟩ |
    ⟨_, upper, t1, r, t2, re, t3, _, _, _, g⟩ <;>
  · rw [g]
    exact ⟨_, rfl, by simp [statCalls]⟩

/-- C2: when `Stat` of the target succeeds with parent `P`, the first `View`
call of `CreateDiff` (the lower view) is on `P` if `removeTopLayer` is false;
if it is true and `Stat` of `P` succeeds, the lower view is on the parent of
`P` when that is non-empty and on `P` itself otherwise. No `Stat` beyond these
one or two is issued, so at most one generation is skipped. -/
theorem CreateDiff_lower_view_parent (ctx : Context) (snapshotID : GoString)
    (sn : Snapshotter σ) (d : Comparer σ) (removeTopLayer : Bool) (opts : List DiffOpt)
    (o : Oracle) (s s1 : σ) (info : Info)
    (hstat : sn.Stat ctx snapshotID s = (Except.ok info, s1)) :
    (removeTopLayer = false →
      (viewCalls (CreateDiff ctx snapshotID sn d removeTopLayer opts o (start s)).2.trace).head?
        = some (lowerKeyOf info.Parent o.lowerUnique, info.Parent)
      ∧ statCalls (CreateDiff ctx snapshotID sn d removeTopLayer opts o (start s)).2.trace
        = [snapshotID])
    ∧ (removeTopLayer = true → ∀ secondInfo s2,
      sn.Stat ctx info.Parent s1 = (Except.ok secondInfo, s2) →
      statCalls (CreateDiff ctx snapshotID sn d removeTopLayer opts o (start s)).2.trace
        = [snapshotID, info.Parent]
      ∧ (secondInfo.Parent ≠ [] →
        (viewCalls (CreateDiff ctx snapshotID sn d removeTopLayer opts o (start s)).2.trace).head?
          = some (lowerKeyOf secondInfo.Parent o.lowerUnique, secondInfo.Parent))
      ∧ (secondInfo.Parent = [] →
        (viewCalls (CreateDiff ctx snapshotID sn d removeTopLayer opts o (start s)).2.trace).head?
          = some (lowerKeyOf info.Parent o.lowerUnique, info.Parent))) := by
  -- the trace once the parent is chosen
  have after : ∀ (parent : GoString) (w2 : World σ),
      selectParent sn ctx info removeTopLayer
        ⟨s1, [Event.stat ctx snapshotID (Except.ok info)]⟩ = (Except.ok parent, w2) →
      ∃ evs, (CreateDiff ctx snapshotID sn d removeTopLayer opts o (start s)).2.trace
        = w2.trace ++ Event.view ctx (lowerKeyOf parent o.lowerUnique) parent
            ((sn.View ctx (lowerKeyOf parent o.lowerUnique) parent w2.state).1) :: evs
        ∧ statCalls evs = [] := by
    intro parent w2 h2
    rcases CreateDiff_paths ctx snapshotID sn d removeTopLayer opts o s with
      ⟨e, t1, h1, _⟩ | ⟨info', t1, h1, hrest⟩
    · rw [hstat] at h1; simp at h1
    · rw [hstat] at h1
      obtain ⟨hi, hs⟩ := Prod.mk.inj h1
      have hi' : info = info' := by injection hi
      subst hi' hs
      rcases hrest with ⟨e, w2', h2', _⟩ | ⟨parent', w2', h2', hrest⟩
      · rw [h2] at h2'; simp at h2'
      · rw [h2] at h2'
        obtain ⟨hp, hw⟩ := Prod.mk.inj h2'
        have hp' : parent = parent' := by injection hp
        subst hp' hw
        rcases hrest with ⟨e, s3, h3, hout⟩ | ⟨lower, s3, r, w4, re, s5, h3, h4, h5, hout⟩
        · rw [hout, h3]
          exact ⟨[], by simp, rfl⟩
        · obtain ⟨evs, htr, hst⟩ := diffUpper_trace sn d ctx o snapshotID info lower opts
            ⟨s3, w2.trace ++
              [Event.view ctx (lowerKeyOf parent o.lowerUnique) parent (Except.ok lower)]⟩
          rw [h4] at htr
          simp only at htr
          rw [hout, h3]
          refine ⟨evs ++ [Event.remove (cleanupCtx ctx o.lowerCleanupTime)
            (lowerKeyOf parent o.lowerUnique) re], by simp [htr], ?_⟩
          simp [statCalls_append, hst, statCalls]
  constructor
  · intro hf
    subst hf
    obtain ⟨evs, htr, hst⟩ := after info.Parent
      ⟨s1, [Event.stat ctx snapshotID (Except.ok info)]⟩ (by simp [selectParent])
    rw [htr]
    simp [viewCalls, statCalls, statCalls_append, viewCalls_append, hst]
  · intro ht secondInfo s2 h2
    subst ht
    have hsel : selectParent sn ctx info true
        ⟨s1, [Event.stat ctx snapshotID (Except.ok info)]⟩
        = (Except.ok (if secondInfo.Parent ≠ [] then secondInfo.Parent else info.Parent),
          ⟨s2, [Event.stat ctx snapshotID (Except.ok info),
            Event.stat ctx info.Parent (Except.ok secondInfo)]⟩) := by
      by_cases hp : secondInfo.Parent = [] <;> simp [selectParent, callStat, h2, hp]
    obtain ⟨evs, htr, hst⟩ := after _ _ hsel
    rw [htr]
    refine ⟨by simp [statCalls, statCalls_append, hst], ?_, ?_⟩
    · intro hp
      simp [viewCalls, viewCalls_append, hp]
    · intro hp
      simp [viewCalls, viewCalls_append, hp]

/-- Witness for C2 on the in-memory service, where `ctr` is on `layer` and
`layer` is on the root `base`: with `removeTopLayer` the diff of `ctr` takes
its lower view on `base`, the diff of `layer` stays on `base`, and without
`removeTopLayer` the diff of `ctr` takes its lower view on `layer`. -/
theorem CreateDiff_lower_view_parent_witness :
    (viewCalls (CreateDiff cancelledCtx (str "ctr") memSnapshotter memComparer true []
        sampleOracle (start sampleSnapshots)).2.trace).head?
      = some (str "base-parent-view-1-aaaa", str "base")
    ∧ (viewCalls (CreateDiff cancelledCtx (str "layer") memSnapshotter memComparer true []
        sampleOracle (start sampleSnapshots)).2.trace).head?
      = some (str "base-parent-view-1-aaaa", str "base")
    ∧ (viewCalls (CreateDiff cancelledCtx (str "ctr") memSnapshotter memComparer false []
        sampleOracle (start sampleSnapshots)).2.trace).head?
      = some (str "layer-parent-view-1-aaaa", str "layer") :=
  ⟨((CreateDiff_lower_view_parent cancelledCtx (str "ctr") memSnapshotter memComparer true []
      sampleOracle sampleSnapshots sampleSnapshots
      { Kind := Kind.KindActive, Name := str "ctr", Parent := str "layer", Labels := none }
      (by rfl)).2 rfl
      { Kind := Kind.KindCommitted, Name := str "layer", Parent := str "base", Labels := none }
      sampleSnapshots (by rfl)).2.1 (by decide),
   ((CreateDiff_lower_view_parent cancelledCtx (str "layer") memSnapshotter memComparer true []
      sampleOracle sampleSnapshots sampleSnapshots
      { Kind := Kind.KindCommitted, Name := str "layer", Parent := str "base", Labels := none }
      (by rfl)).2 rfl
      { Kind := Kind.KindCommitted, Name := str "base", Parent := [], Labels := none }
      sampleSnapshots (by rfl)).2.2 rfl,
   ((CreateDiff_lower_view_parent cancelledCtx (str "ctr") memSnapshotter memComparer false []
      sampleOracle sampleSnapshots sampleSnapshots
      { Kind := Kind.KindActive, Name := str "ctr", Parent := str "layer", Labels := none }
      (by rfl)).1 rfl).1⟩

end LowerBound

section UpperState
variable {σ : Type}

theorem viewCalls_of_stats (evs : List Event) (h : ∀ e ∈ evs, e.isStat = true) :
    viewCalls evs = [] := by
  induction evs with
  | nil => rfl
  | cons e t ih =>
    have he := h e (List.mem_cons_self _ _)
    cases e <;> simp [Event.isStat] at he
    simp only [viewCalls]
    exact ih fun x hx => h x (List.mem_cons_of_mem _ hx)

theorem isMounts_of_isStat (e : Event) (h : e.isStat = true) : e.isMounts = false := by
  cases e <;> simp_all [Event.isStat, Event.isMounts]

theorem isCompare_of_isStat (e : Event) (h : e.isStat = true) : e.isCompare = false := by
  cases e <;> simp_all [Event.isStat, Event.isCompare]

/-- C3 as stated fails: for the Active snapshot `solo`, which has no parent,
`CreateDiff` with `removeTopLayer` returns the error of the `Stat` of the
parent and calls `View` not once but never. Nor does every Active target reach
the comparer: when the key of the lower view is in use the lower `View` fails
and neither `Mounts` nor the comparer is called, and when `Mounts` fails the
comparer is not called. -/
theorem CreateDiff_active_view_count_counterexample :
    memSnapshotter.Stat cancelledCtx (str "solo") rootSnapshots
      = (Except.ok { Kind := Kind.KindActive, Name := str "solo", Parent := [], Labels := none },
        rootSnapshots)
    ∧ viewCalls (CreateDiff cancelledCtx (str "solo") memSnapshotter memComparer true []
        sampleOracle (start rootSnapshots)).2.trace = []
    ∧ (CreateDiff cancelledCtx (str "solo") memSnapshotter memComparer true []
        sampleOracle (start rootSnapshots)).1 = ({}, some (Error.upstream (str "not found")))
    ∧ (viewCalls (CreateDiff cancelledCtx (str "solo") memSnapshotter memComparer true []
        sampleOracle (start rootSnapshots)).2.trace).length ≠ 1
    ∧ (CreateDiff cancelledCtx (str "ctr") memSnapshotter memComparer false []
        sampleOracle (start busySnapshots)).1
        = ({}, some (Error.upstream (str "already exists")))
    ∧ ((CreateDiff cancelledCtx (str "ctr") memSnapshotter memComparer false []
        sampleOracle (start busySnapshots)).2.trace.filter
          fun e => e.isMounts || e.isCompare).length = 0
    ∧ (CreateDiff cancelledCtx (str "ctr") brokenMounts memComparer false []
        sampleOracle (start sampleSnapshots)).1
        = ({}, some (Error.upstream (str "i/o error")))
    ∧ ((CreateDiff cancelledCtx (str "ctr") brokenMounts memComparer false []
        sampleOracle (start sampleSnapshots)).2.trace.filter
          fun e => e.isCompare).length = 0 :=
  ⟨by rfl, by rfl, by rfl, by decide, by rfl, by rfl, by rfl, by rfl⟩

/-- The calls of `CreateDiff` once `Stat` of the target has succeeded: only
`Stat` calls precede the lower `View`; an Active target sees at most one `View`
and a comparer call only right after `Mounts`; a target that is not Active sees
no `Mounts` and a comparer call only right after the second `View`. -/
theorem CreateDiff_calls (ctx : Context) (snapshotID : GoString)
    (sn : Snapshotter σ) (d : Comparer σ) (removeTopLayer : Bool) (opts : List DiffOpt)
    (o : Oracle) (s s1 : σ) (info : Info)
    (hstat : sn.Stat ctx snapshotID s = (Except.ok info, s1)) :
    (∃ pre rest,
      (CreateDiff ctx snapshotID sn d removeTopLayer opts o (start s)).2.trace = pre ++ rest ∧
      (∀ e ∈ pre, e.isStat = true) ∧
      (rest = [] ∨ ∃ parent r tail,
        rest = Event.view ctx (lowerKeyOf parent o.lowerUnique) parent r :: tail))
    ∧ (info.Kind = Kind.KindActive →
      (viewCalls (CreateDiff ctx snapshotID sn d removeTopLayer opts o (start s)).2.trace).length ≤ 1
      ∧ ((removeTopLayer = false ∨
            ∃ secondInfo s2, sn.Stat ctx info.Parent s1 = (Except.ok secondInfo, s2)) →
          (viewCalls (CreateDiff ctx snapshotID sn d removeTopLayer opts o (start s)).2.trace).length
            = 1)
      ∧ ((∀ e ∈ (CreateDiff ctx snapshotID sn d removeTopLayer opts o (start s)).2.trace,
            e.isCompare = false) ∨
          ∃ pre post parent lower upper r,
            (CreateDiff ctx snapshotID sn d removeTopLayer opts o (start s)).2.trace = pre ++
              [Event.view ctx (lowerKeyOf parent o.lowerUnique) parent (Except.ok lower),
               Event.mounts ctx snapshotID (Except.ok upper),
               Event.compare ctx lower upper opts r] ++ post ∧
            (∀ e ∈ pre ++ post, e.isCompare = false) ∧
            (CreateDiff ctx snapshotID sn d removeTopLayer opts o (start s)).1 = r))
    ∧ (info.Kind ≠ Kind.KindActive →
      (∀ e ∈ (CreateDiff ctx snapshotID sn d removeTopLayer opts o (start s)).2.trace,
          e.isMounts = false)
      ∧ ((∀ e ∈ (CreateDiff ctx snapshotID sn d removeTopLayer opts o (start s)).2.trace,
            e.isCompare = false) ∨
          ∃ pre post parent lower upper r,
            (CreateDiff ctx snapshotID sn d removeTopLayer opts o (start s)).2.trace = pre ++
              [Event.view ctx (lowerKeyOf parent o.lowerUnique) parent (Except.ok lower),
               Event.view ctx (upperKeyOf snapshotID o.upperUnique) snapshotID (Except.ok upper),
               Event.compare ctx lower upper opts r] ++ post ∧
            (∀ e ∈ pre ++ post, e.isCompare = false) ∧
            (CreateDiff ctx snapshotID sn d removeTopLayer opts o (start s)).1 = r)) := by
  obtain ⟨pre, hpre, hshape⟩ := CreateDiff_shape ctx snapshotID sn d removeTopLayer opts o s s1
    info hstat
  have hV := viewCalls_of_stats pre hpre
  have hM : ∀ e ∈ pre, e.isMounts = false := fun e he => isMounts_of_isStat e (hpre e he)
  have hC : ∀ e ∈ pre, e.isCompare = false := fun e he => isCompare_of_isStat e (hpre e he)
  rcases hshape with ⟨e, s2, ht, hs2, htr, hres⟩ | ⟨parent, e, htr, hres⟩ |
    ⟨hk, parent, lower, e, re, htr, hres⟩ | ⟨hk, parent, lower, upper, r, re, htr, hres⟩ |
    ⟨hk, parent, lower, e, re, htr, hres⟩ | ⟨hk, parent, lower, upper, r, re1, re, htr, hres⟩
  · -- the Stat of the parent fails
    rw [htr]
    refine ⟨⟨pre, [], by simp, hpre, Or.inl rfl⟩, fun _ => ⟨by simp [hV], ?_, Or.inl hC⟩,
      fun _ => ⟨hM, Or.inl hC⟩⟩
    rintro (hf | ⟨i2, s2', h2⟩)
    · rw [ht] at hf; simp at hf
    · rw [hs2] at h2; simp at h2
  · -- the lower View fails
    rw [htr]
    have hnc : ∀ x ∈ pre ++
        [Event.view ctx (lowerKeyOf parent o.lowerUnique) parent (Except.error e)],
        x.isCompare = false := by
      intro x hx
      rcases List.mem_append.1 hx with h | h
      · exact hC x h
      · simp at h; subst h; rfl
    refine ⟨⟨pre, _, rfl, hpre, Or.inr ⟨parent, _, [], rfl⟩⟩,
      fun _ => ⟨by simp [viewCalls_append, hV, viewCalls],
        fun _ => by simp [viewCalls_append, hV, viewCalls], Or.inl hnc⟩,
      fun _ => ⟨?_, Or.inl hnc⟩⟩
    intro x hx
    rcases List.mem_append.1 hx with h | h
    · exact hM x h
    · simp at h; subst h; rfl
  · -- Active target, Mounts fails
    rw [htr]
    have hnc : ∀ x ∈ pre ++
        [Event.view ctx (lowerKeyOf parent o.lowerUnique) parent (Except.ok lower),
          Event.mounts ctx snapshotID (Except.error e),
          Event.remove (cleanupCtx ctx o.lowerCleanupTime)
            (lowerKeyOf parent o.lowerUnique) re],
        x.isCompare = false := by
      intro x hx
      rcases List.mem_append.1 hx with h | h
      · exact hC x h
      · simp at h; rcases h with h | h | h <;> subst h <;> rfl
    exact ⟨⟨pre, _, rfl, hpre, Or.inr ⟨parent, _, _, rfl⟩⟩,
      fun _ => ⟨by simp [viewCalls_append, hV, viewCalls],
        fun _ => by simp [viewCalls_append, hV, viewCalls], Or.inl hnc⟩,
      fun hn => absurd hk hn⟩
  · -- Active target, the comparer runs
    rw [htr, hres]
    refine ⟨⟨pre, _, rfl, hpre, Or.inr ⟨parent, _, _, rfl⟩⟩,
      fun _ => ⟨by simp [viewCalls_append, hV, viewCalls],
        fun _ => by simp [viewCalls_append, hV, viewCalls], Or.inr ?_⟩,
      fun hn => absurd hk hn⟩
    refine ⟨pre, [Event.remove (cleanupCtx ctx o.lowerCleanupTime)
      (lowerKeyOf parent o.lowerUnique) re], parent, lower, upper, r, by simp, ?_, rfl⟩
    intro x hx
    rcases List.mem_append.1 hx with h | h
    · exact hC x h
    · simp at h; subst h; rfl
  · -- target not Active, the upper View fails
    rw [htr]
    have hnc : ∀ x ∈ pre ++
        [Event.view ctx (lowerKeyOf parent o.lowerUnique) parent (Except.ok lower),
          Event.view ctx (upperKeyOf snapshotID o.upperUnique) snapshotID (Except.error e),
          Event.remove (cleanupCtx ctx o.lowerCleanupTime)
            (lowerKeyOf parent o.lowerUnique) re],
        x.isCompare = false := by
      intro x hx
      rcases List.mem_append.1 hx with h | h
      · exact hC x h
      · simp at h; rcases h with h | h | h <;> subst h <;> rfl
    refine ⟨⟨pre, _, rfl, hpre, Or.inr ⟨parent, _, _, rfl⟩⟩,
      fun ha => absurd ha hk, fun _ => ⟨?_, Or.inl hnc⟩⟩
    intro x hx
    rcases List.mem_append.1 hx with h | h
    · exact hM x h
    · simp at h; rcases h with h | h | h <;> subst h <;> rfl
  · -- target not Active, the comparer runs
    rw [htr, hres]
    refine ⟨⟨pre, _, rfl, hpre, Or.inr ⟨parent, _, _, rfl⟩⟩,
      fun ha => absurd ha hk, fun _ => ⟨?_, Or.inr ?_⟩⟩
    · intro x hx
      rcases List.mem_append.1 hx with h | h
      · exact hM x h
      · simp at h; rcases h with h | h | h | h | h <;> subst h <;> rfl
    · refine ⟨pre, [Event.remove (cleanupCtx ctx o.upperCleanupTime)
          (upperKeyOf snapshotID o.upperUnique) re1,
        Event.remove (cleanupCtx ctx o.lowerCleanupTime)
          (lowerKeyOf parent o.lowerUnique) re], parent, lower, upper, r, by simp, ?_, rfl⟩
      intro x hx
      rcases List.mem_append.1 hx with h | h
      · exact hC x h
      · simp at h; rcases h with h | h <;> subst h <;> rfl

/-- The choice of the parent, given what the service answered. -/
theorem selectParent_of_selected (sn : Snapshotter σ) (ctx : Context) (snapshotID : GoString)
    (info : Info) (removeTopLayer : Bool) (s1 s2 : σ) (parent : GoString) (pre : List Event)
    (hsel : ParentSelected sn ctx snapshotID info removeTopLayer s1 parent s2 pre) :
    selectParent sn ctx info removeTopLayer ⟨s1, [Event.stat ctx snapshotID (Except.ok info)]⟩
      = (Except.ok parent, ⟨s2, pre⟩) := by
  rcases hsel with ⟨hf, hp, hs, hpre⟩ | ⟨ht, secondInfo, h2, hp, hpre⟩
  · subst hf hp hs hpre
    simp [selectParent]
  · subst ht hp hpre
    by_cases hq : secondInfo.Parent = [] <;> simp [selectParent, callStat, h2, hq]

/-- C3, amended: let `Stat` of the target succeed. If `removeTopLayer` is set
and `Stat` of the parent fails, `CreateDiff` returns that error and calls
nothing else. Otherwise it calls the lower `View`, after `Stat` calls only, and
returns its error if it fails. Once the lower `View` has succeeded: for an
Active target it calls no further `View` but `Mounts(snapshotID)`, returns its
error if it fails, and otherwise calls the comparer with the mounts of the lower
view and exactly the mounts `Mounts` returned; for a target that is not Active
it never calls `Mounts` but a second `View` on `snapshotID`, returns its error
if it fails, and otherwise calls the comparer with the mounts of the two views.
In both cases the descriptor and error of the comparer are returned unchanged,
and the trace of each run is exactly the calls listed. -/
theorem CreateDiff_upper_state (ctx : Context) (snapshotID : GoString)
    (sn : Snapshotter σ) (d : Comparer σ) (removeTopLayer : Bool) (opts : List DiffOpt)
    (o : Oracle) (s s1 : σ) (info : Info)
    (hstat : sn.Stat ctx snapshotID s = (Except.ok info, s1)) :
    -- the parent cannot be looked up
    (∀ e s2, removeTopLayer = true → sn.Stat ctx info.Parent s1 = (Except.error e, s2) →
      CreateDiff ctx snapshotID sn d removeTopLayer opts o (start s) =
        (({}, some e), ⟨s2, [Event.stat ctx snapshotID (Except.ok info),
          Event.stat ctx info.Parent (Except.error e)]⟩))
    -- the lower view cannot be opened
    ∧ (∀ parent s2 pre e s3,
      ParentSelected sn ctx snapshotID info removeTopLayer s1 parent s2 pre →
      sn.View ctx (lowerKeyOf parent o.lowerUnique) parent s2 = (Except.error e, s3) →
      CreateDiff ctx snapshotID sn d removeTopLayer opts o (start s) =
        (({}, some e), ⟨s3, pre ++
          [Event.view ctx (lowerKeyOf parent o.lowerUnique) parent (Except.error e)]⟩))
    -- Active target, the lower view is open
    ∧ (info.Kind = Kind.KindActive → ∀ parent s2 pre lower s3,
      ParentSelected sn ctx snapshotID info removeTopLayer s1 parent s2 pre →
      sn.View ctx (lowerKeyOf parent o.lowerUnique) parent s2 = (Except.ok lower, s3) →
      (∀ upper s4 r s5 re s6,
        sn.Mounts ctx snapshotID s3 = (Except.ok upper, s4) →
        d.Compare ctx lower upper opts s4 = (r, s5) →
        sn.Remove (cleanupCtx ctx o.lowerCleanupTime) (lowerKeyOf parent o.lowerUnique) s5
          = (re, s6) →
        CreateDiff ctx snapshotID sn d removeTopLayer opts o (start s) =
          (r, ⟨s6, pre ++
            [Event.view ctx (lowerKeyOf parent o.lowerUnique) parent (Except.ok lower),
             Event.mounts ctx snapshotID (Except.ok upper),
             Event.compare ctx lower upper opts r,
             Event.remove (cleanupCtx ctx o.lowerCleanupTime)
               (lowerKeyOf parent o.lowerUnique) re]⟩))
      ∧ (∀ e s4 re s5,
        sn.Mounts ctx snapshotID s3 = (Except.error e, s4) →
        sn.Remove (cleanupCtx ctx o.lowerCleanupTime) (lowerKeyOf parent o.lowerUnique) s4
          = (re, s5) →
        CreateDiff ctx snapshotID sn d removeTopLayer opts o (start s) =
          (({}, some e), ⟨s5, pre ++
            [Event.view ctx (lowerKeyOf parent o.lowerUnique) parent (Except.ok lower),
             Event.mounts ctx snapshotID (Except.error e),
             Event.remove (cleanupCtx ctx o.lowerCleanupTime)
               (lowerKeyOf parent o.lowerUnique) re]⟩)))
    -- target not Active, the lower view is open
    ∧ (info.Kind ≠ Kind.KindActive → ∀ parent s2 pre lower s3,
      ParentSelected sn ctx snapshotID info removeTopLayer s1 parent s2 pre →
      sn.View ctx (lowerKeyOf parent o.lowerUnique) parent s2 = (Except.ok lower, s3) →
      (∀ upper s4 r s5 re1 s6 re s7,
        sn.View ctx (upperKeyOf snapshotID o.upperUnique) snapshotID s3 = (Except.ok upper, s4) →
        d.Compare ctx lower upper opts s4 = (r, s5) →
        sn.Remove (cleanupCtx ctx o.upperCleanupTime) (upperKeyOf snapshotID o.upperUnique) s5
          = (re1, s6) →
        sn.Remove (cleanupCtx ctx o.lowerCleanupTime) (lowerKeyOf parent o.lowerUnique) s6
          = (re, s7) →
        CreateDiff ctx snapshotID sn d removeTopLayer opts o (start s) =
          (r, ⟨s7, pre ++
            [Event.view ctx (lowerKeyOf parent o.lowerUnique) parent (Except.ok lower),
             Event.view ctx (upperKeyOf snapshotID o.upperUnique) snapshotID (Except.ok upper),
             Event.compare ctx lower upper opts r,
             Event.remove (cleanupCtx ctx o.upperCleanupTime)
               (upperKeyOf snapshotID o.upperUnique) re1,
             Event.remove (cleanupCtx ctx o.lowerCleanupTime)
               (lowerKeyOf parent o.lowerUnique) re]⟩))
      ∧ (∀ e s4 re s5,
        sn.View ctx (upperKeyOf snapshotID o.upperUnique) snapshotID s3
          = (Except.error e, s4) →
        sn.Remove (cleanupCtx ctx o.lowerCleanupTime) (lowerKeyOf parent o.lowerUnique) s4
          = (re, s5) →
        CreateDiff ctx snapshotID sn d removeTopLayer opts o (start s) =
          (({}, some e), ⟨s5, pre ++
            [Event.view ctx (lowerKeyOf parent o.lowerUnique) parent (Except.ok lower),
             Event.view ctx (upperKeyOf snapshotID o.upperUnique) snapshotID (Except.error e),
             Event.remove (cleanupCtx ctx o.lowerCleanupTime)
               (lowerKeyOf parent o.lowerUnique) re]⟩)))
    -- the order and the number of the calls, on every path
    ∧ (∃ pre rest,
      (CreateDiff ctx snapshotID sn d removeTopLayer opts o (start s)).2.trace = pre ++ rest ∧
      (∀ e ∈ pre, e.isStat = true) ∧
      (rest = [] ∨ ∃ parent r tail,
        rest = Event.view ctx (lowerKeyOf parent o.lowerUnique) parent r :: tail))
    ∧ (info.Kind = Kind.KindActive →
      (viewCalls (CreateDiff ctx snapshotID sn d removeTopLayer opts o (start s)).2.trace).length ≤ 1
      ∧ ((removeTopLayer = false ∨
            ∃ secondInfo s2, sn.Stat ctx info.Parent s1 = (Except.ok secondInfo, s2)) →
          (viewCalls (CreateDiff ctx snapshotID sn d removeTopLayer opts o (start s)).2.trace).length
            = 1))
    ∧ (info.Kind ≠ Kind.KindActive →
      ∀ e ∈ (CreateDiff ctx snapshotID sn d removeTopLayer opts o (start s)).2.trace,
        e.isMounts = false) := by
  have hcalls := CreateDiff_calls ctx snapshotID sn d removeTopLayer opts o s s1 info hstat
  refine ⟨?_, ?_, ?_, ?_, hcalls.1, fun hk => ⟨(hcalls.2.1 hk).1, (hcalls.2.1 hk).2.1⟩,
    fun hk => (hcalls.2.2 hk).1⟩
  · intro e s2 ht h2
    subst ht
    simp [CreateDiff, callStat, start, hstat, selectParent, h2]
  · intro parent s2 pre e s3 hsel hview
    have hs := selectParent_of_selected sn ctx snapshotID info removeTopLayer s1 s2 parent pre hsel
    simp [CreateDiff, callStat, start, hstat, hs, callView, hview]
  · intro hk parent s2 pre lower s3 hsel hview
    have hs := selectParent_of_selected sn ctx snapshotID info removeTopLayer s1 s2 parent pre hsel
    constructor
    · intro upper s4 r s5 re s6 hm hc hr
      simp only [cleanupCtx] at hr
      simp [CreateDiff, callStat, start, hstat, hs, callView, hview, diffUpper, hk, callMounts,
        hm, callCompare, hc, Do, callRemove, hr, cleanupCtx]
    · intro e s4 re s5 hm hr
      simp only [cleanupCtx] at hr
      simp [CreateDiff, callStat, start, hstat, hs, callView, hview, diffUpper, hk, callMounts,
        hm, Do, callRemove, hr, cleanupCtx]
  · intro hk parent s2 pre lower s3 hsel hview
    have hs := selectParent_of_selected sn ctx snapshotID info removeTopLayer s1 s2 parent pre hsel
    constructor
    · intro upper s4 r s5 re1 s6 re s7 hv hc hr1 hr
      simp only [cleanupCtx] at hr hr1
      simp [CreateDiff, callStat, start, hstat, hs, callView, hview, diffUpper, hk, hv,
        callCompare, hc, Do, callRemove, hr1, hr, cleanupCtx]
    · intro e s4 re s5 hv hr
      simp only [cleanupCtx] at hr
      simp [CreateDiff, callStat, start, hstat, hs, callView, hview, diffUpper, hk, hv, Do,
        callRemove, hr, cleanupCtx]

/-- Witness for the amended C3 on the in-memory service: the diff of the Active
snapshot `ctr` opens the lower view on `layer`, calls `Mounts` on `ctr`, runs
the comparer on the mounts of the two and returns its descriptor; the diff of
the committed snapshot `layer` opens the lower view on `base` and a second view
on `layer`, runs the comparer on their mounts and never calls `Mounts`. -/
theorem CreateDiff_upper_state_witness :
    CreateDiff cancelledCtx (str "ctr") memSnapshotter memComparer false [] sampleOracle
        (start sampleSnapshots) =
      (({ MediaType := str "application/vnd.oci.image.layer.v1.tar",
          Digest := str "layer-parent-view-1-aaaa..ctr", Size := 1 }, none),
        ⟨sampleSnapshots,
          [Event.stat cancelledCtx (str "ctr") (Except.ok
              { Kind := Kind.KindActive, Name := str "ctr", Parent := str "layer",
                Labels := none }),
           Event.view cancelledCtx (str "layer-parent-view-1-aaaa") (str "layer")
             (Except.ok (mountsOf (str "layer-parent-view-1-aaaa"))),
           Event.mounts cancelledCtx (str "ctr") (Except.ok (mountsOf (str "ctr"))),
           Event.compare cancelledCtx (mountsOf (str "layer-parent-view-1-aaaa"))
             (mountsOf (str "ctr")) []
             ({ MediaType := str "application/vnd.oci.image.layer.v1.tar",
                Digest := str "layer-parent-view-1-aaaa..ctr", Size := 1 }, none),
           Event.remove (cleanupCtx cancelledCtx 7) (str "layer-parent-view-1-aaaa") none]⟩)
    ∧ (CreateDiff cancelledCtx (str "layer") memSnapshotter memComparer false [] sampleOracle
        (start sampleSnapshots)).1 =
      ({ MediaType := str "application/vnd.oci.image.layer.v1.tar",
         Digest := str "base-parent-view-1-aaaa..layer-view-2-bbbb", Size := 1 }, none)
    ∧ (∀ e ∈ (CreateDiff cancelledCtx (str "layer") memSnapshotter memComparer false []
        sampleOracle (start sampleSnapshots)).2.trace, e.isMounts = false) :=
  ⟨((CreateDiff_upper_state cancelledCtx (str "ctr") memSnapshotter memComparer false []
      sampleOracle sampleSnapshots sampleSnapshots
      { Kind := Kind.KindActive, Name := str "ctr", Parent := str "layer", Labels := none }
      (by rfl)).2.2.1 rfl (str "layer") sampleSnapshots
      [Event.stat cancelledCtx (str "ctr") (Except.ok
        { Kind := Kind.KindActive, Name := str "ctr", Parent := str "layer", Labels := none })]
      (mountsOf (str "layer-parent-view-1-aaaa"))
      ({ Kind := Kind.KindView, Name := str "layer-parent-view-1-aaaa", Parent := str "layer",
         Labels := none } :: sampleSnapshots)
      (Or.inl ⟨rfl, rfl, rfl, rfl⟩) (by rfl)).1
      (mountsOf (str "ctr"))
      ({ Kind := Kind.KindView, Name := str "layer-parent-view-1-aaaa", Parent := str "layer",
         Labels := none } :: sampleSnapshots)
      ({ MediaType := str "application/vnd.oci.image.layer.v1.tar",
         Digest := str "layer-parent-view-1-aaaa..ctr", Size := 1 }, none)
      ({ Kind := Kind.KindView, Name := str "layer-parent-view-1-aaaa", Parent := str "layer",
         Labels := none } :: sampleSnapshots)
      none sampleSnapshots (by rfl) (by rfl) (by rfl),
   congrArg Prod.fst
    (((CreateDiff_upper_state cancelledCtx (str "layer") memSnapshotter memComparer false []
      sampleOracle sampleSnapshots sampleSnapshots
      { Kind := Kind.KindCommitted, Name := str "layer", Parent := str "base", Labels := none }
      (by rfl)).2.2.2.1 (by decide) (str "base") sampleSnapshots
      [Event.stat cancelledCtx (str "layer") (Except.ok
        { Kind := Kind.KindCommitted, Name := str "layer", Parent := str "base",
          Labels := none })]
      (mountsOf (str "base-parent-view-1-aaaa"))
      ({ Kind := Kind.KindView, Name := str "base-parent-view-1-aaaa", Parent := str "base",
         Labels := none } :: sampleSnapshots)
      (Or.inl ⟨rfl, rfl, rfl, rfl⟩) (by rfl)).1
      (mountsOf (str "layer-view-2-bbbb"))
      ({ Kind := Kind.KindView, Name := str "layer-view-2-bbbb", Parent := str "layer",
         Labels := none } ::
       { Kind := Kind.KindView, Name := str "base-parent-view-1-aaaa", Parent := str "base",
         Labels := none } :: sampleSnapshots)
      ({ MediaType := str "application/vnd.oci.image.layer.v1.tar",
         Digest := str "base-parent-view-1-aaaa..layer-view-2-bbbb", Size := 1 }, none)
      ({ Kind := Kind.KindView, Name := str "layer-view-2-bbbb", Parent := str "layer",
         Labels := none } ::
       { Kind := Kind.KindView, Name := str "base-parent-view-1-aaaa", Parent := str "base",
         Labels := none } :: sampleSnapshots)
      none
      ({ Kind := Kind.KindView, Name := str "base-parent-view-1-aaaa", Parent := str "base",
         Labels := none } :: sampleSnapshots)
      none sampleSnapshots (by rfl) (by rfl) (by rfl) (by rfl)),
   (CreateDiff_upper_state cancelledCtx (str "layer") memSnapshotter memComparer false []
      sampleOracle sampleSnapshots sampleSnapshots
      { Kind := Kind.KindCommitted, Name := str "layer", Parent := str "base", Labels := none }
      (by rfl)).2.2.2.2.2.2 (by decide)⟩

end UpperState

section Shielding

/-- C9: whatever the parent context reports, the context made by `Background`
reports no error at any time, no deadline, and a nil `Done` channel, which
never fires, and looks values up in the parent. `Do` runs the action exactly
once, as its own effect, on a context built from that shielded context with
`WithTimeout`: its deadline is 10 seconds after the call, before that deadline
it reports no error and its `Done` channel is not closed (so it is not cancelled
when the action starts), from the deadline on it reports `DeadlineExceeded`,
and it still looks values up in the parent. `Do` has no result besides its
effect. -/
theorem Do_runs_action_once_shielded {ω : Type} (parent : Context) (now : Nat)
    (action : Context → ω → Unit × ω) (w : ω) :
    (∀ t, (Background parent).Err t = none)
    ∧ (Background parent).Deadline = none
    ∧ (Background parent).Done = none
    ∧ (∀ t, (Background parent).fires t = false)
    ∧ (Background parent).Value = parent.Value
    ∧ Do parent now action w = action (WithTimeout (Background parent) now (10 * Second)) w
    ∧ (Do parent now action w).1 = ()
    ∧ (WithTimeout (Background parent) now (10 * Second)).Deadline = some (now + 10000000000)
    ∧ (WithTimeout (Background parent) now (10 * Second)).Err now = none
    ∧ (WithTimeout (Background parent) now (10 * Second)).fires now = false
    ∧ (∀ t, t < now + 10000000000 →
        (WithTimeout (Background parent) now (10 * Second)).Err t = none
        ∧ (WithTimeout (Background parent) now (10 * Second)).fires t = false)
    ∧ (∀ t, now + 10000000000 ≤ t →
        (WithTimeout (Background parent) now (10 * Second)).Err t
          = some CtxError.DeadlineExceeded)
    ∧ (WithTimeout (Background parent) now (10 * Second)).Value = parent.Value := by
  have before : ∀ t, t < now + 10000000000 →
      (WithTimeout (Background parent) now (10 * Second)).Err t = none
      ∧ (WithTimeout (Background parent) now (10 * Second)).fires t = false := by
    intro t ht
    simp only [WithTimeout, Background, clearCancel, Context.fires, Second, Option.bind]
    constructor
    · rw [if_neg (by omega)]
    · simp only [decide_eq_false_iff_not]; omega
  refine ⟨fun _ => rfl, rfl, rfl, fun _ => rfl, rfl, rfl, rfl, rfl, (before now (by omega)).1,
    (before now (by omega)).2, before, ?_, rfl⟩
  intro t ht
  simp only [WithTimeout, Background, clearCancel, Second, Option.bind]
  rw [if_pos (by omega)]

/-- Witness for C9: under a parent context cancelled long ago, `Do` called at
time 5 runs a counting action once, on a context that is not cancelled at
time 5. -/
theorem Do_runs_action_once_shielded_witness :
    cancelledCtx.Err 5 = some CtxError.Canceled
    ∧ Do cancelledCtx 5 (fun _ n => ((), n + 1)) (0 : Nat) = ((), 1)
    ∧ (WithTimeout (Background cancelledCtx) 5 (10 * Second)).Err 6 = none
    ∧ (WithTimeout (Background cancelledCtx) 5 (10 * Second)).fires 6 = false :=
  ⟨rfl,
   (Do_runs_action_once_shielded cancelledCtx 5 (fun _ n => ((), n + 1)) (0 : Nat)).2.2.2.2.2.1,
   ((Do_runs_action_once_shielded cancelledCtx 5 (fun _ n => ((), n + 1))
      (0 : Nat)).2.2.2.2.2.2.2.2.2.2.1 6 (by decide)).1,
   ((Do_runs_action_once_shielded cancelledCtx 5 (fun _ n => ((), n + 1))
      (0 : Nat)).2.2.2.2.2.2.2.2.2.2.1 6 (by decide)).2⟩

end Shielding

section ParseChanges

theorem commandDirective_ne_entrypointDirective : commandDirective ≠ entrypointDirective := by
  decide

/-- `CMD` followed by a JSON white space byte is the first token. -/
theorem Fields_cmd_space (sp : Nat) (t : GoString) (h : isJSONSpace sp = true) :
    (Fields (commandDirective ++ sp :: t)).head? = some commandDirective := by
  have hk : commandDirective = [67, 77, 68] := by decide
  have hsp : sp = 0x20 ∨ sp = 0x09 ∨ sp = 0x0D ∨ sp = 0x0A := by
    simpa [isJSONSpace] using h
  rw [hk]
  unfold Fields
  split
  · rcases hsp with rfl | rfl | rfl | rfl <;>
      simp [fieldsASCII, asciiSpace, flushField]
  · rcases hsp with rfl | rfl | rfl | rfl <;>
      simp [FieldsFunc, fieldsFuncLoop, decodeRune, IsSpace, flushField]

/-- `ENTRYPOINT` followed by a JSON white space byte is the first token. -/
theorem Fields_entrypoint_space (sp : Nat) (t : GoString) (h : isJSONSpace sp = true) :
    (Fields (entrypointDirective ++ sp :: t)).head? = some entrypointDirective := by
  have hk : entrypointDirective = [69, 78, 84, 82, 89, 80, 79, 73, 78, 84] := by decide
  have hsp : sp = 0x20 ∨ sp = 0x09 ∨ sp = 0x0D ∨ sp = 0x0A := by
    simpa [isJSONSpace] using h
  rw [hk]
  unfold Fields
  split
  · rcases hsp with rfl | rfl | rfl | rfl <;>
      simp [fieldsASCII, asciiSpace, flushField]
  · rcases hsp with rfl | rfl | rfl | rfl <;>
      simp [FieldsFunc, fieldsFuncLoop, decodeRune, IsSpace, flushField]

/-- One turn of the loop on a directive that starts with `CMD`. -/
theorem parseChangesLoop_cmd (change : GoString) (v : Option (List GoString))
    (h : Accepted commandDirective v change) (rest : List GoString) (changes : Changes)
    (log : List String) :
    parseChangesLoop (change :: rest) changes log =
      parseChangesLoop rest { changes with CMD := v }
        (if changes.CMD ≠ none then log ++ [warnCMD] else log) := by
  obtain ⟨sp, t, hc, hsp, hj⟩ := h
  have hf := Fields_cmd_space sp t hsp
  rw [← hc] at hf
  have hne : change ≠ [] := by
    rw [hc]
    intro h0
    have hl := congrArg List.length h0
    have h3 : commandDirective.length = 3 := by decide
    rw [List.length_append, h3] at hl
    simp at hl
  have hdrop : change.drop commandDirective.length = sp :: t := by
    rw [hc]; simp
  cases hF : Fields change with
  | nil => rw [hF] at hf; simp at hf
  | cons field0 fs =>
    rw [hF] at hf
    simp only [List.head?_cons, Option.some.injEq] at hf
    subst hf
    rw [parseChangesLoop, if_neg hne, hF]
    simp only [if_true, hdrop, hj]

/-- One turn of the loop on a directive that starts with `ENTRYPOINT`. -/
theorem parseChangesLoop_entrypoint (change : GoString) (v : Option (List GoString))
    (h : Accepted entrypointDirective v change) (rest : List GoString) (changes : Changes)
    (log : List String) :
    parseChangesLoop (change :: rest) changes log =
      parseChangesLoop rest { changes with Entrypoint := v }
        (if changes.Entrypoint ≠ none then log ++ [warnEntrypoint] else log) := by
  obtain ⟨sp, t, hc, hsp, hj⟩ := h
  have hf := Fields_entrypoint_space sp t hsp
  rw [← hc] at hf
  have hne : change ≠ [] := by
    rw [hc]
    intro h0
    have hl := congrArg List.length h0
    have h10 : entrypointDirective.length = 10 := by decide
    rw [List.length_append, h10] at hl
    simp at hl
  have hdrop : change.drop entrypointDirective.length = sp :: t := by
    rw [hc]; simp
  cases hF : Fields change with
  | nil => rw [hF] at hf; simp at hf
  | cons field0 fs =>
    rw [hF] at hf
    simp only [List.head?_cons, Option.some.injEq] at hf
    subst hf
    rw [parseChangesLoop, if_neg hne, hF]
    simp only [if_neg commandDirective_ne_entrypointDirective.symm, if_true, hdrop, hj]

/-- The loop on well-formed directives, from any value of `changes`: each
override ends as the array of the last directive of its kind, or as it was. -/
theorem parseChangesLoop_wellFormed (ds : List Directive) (h : ∀ d ∈ ds, d.WellFormed)
    (changes : Changes) (log : List String) :
    ∃ warnings, parseChangesLoop (ds.map Directive.text) changes log =
      GoResult.returned
        ⟨⟨(lastOverride DirectiveKind.cmd ds).orElse fun _ => changes.CMD,
          (lastOverride DirectiveKind.entrypoint ds).orElse fun _ => changes.Entrypoint⟩,
         none, warnings⟩ := by
  induction ds generalizing changes log with
  | nil => exact ⟨log, by simp [parseChangesLoop, lastOverride]⟩
  | cons d ds ih =>
    have hd : d.WellFormed := h d (List.mem_cons_self _ _)
    have hds : ∀ x ∈ ds, x.WellFormed := fun x hx => h x (List.mem_cons_of_mem _ hx)
    cases hk : d.kind with
    | cmd =>
      have hacc : Accepted commandDirective (some d.value) d.text := by
        have := hd
        simp only [Directive.WellFormed, hk, DirectiveKind.keyword] at this
        exact this
      obtain ⟨w, hw⟩ := ih hds { changes with CMD := some d.value }
        (if changes.CMD ≠ none then log ++ [warnCMD] else log)
      refine ⟨w, ?_⟩
      rw [List.map_cons, parseChangesLoop_cmd d.text (some d.value) hacc, hw]
      simp only [lastOverride, hk]
      cases lastOverride DirectiveKind.cmd ds <;>
        cases lastOverride DirectiveKind.entrypoint ds <;> simp
    | entrypoint =>
      have hacc : Accepted entrypointDirective (some d.value) d.text := by
        have := hd
        simp only [Directive.WellFormed, hk, DirectiveKind.keyword] at this
        exact this
      obtain ⟨w, hw⟩ := ih hds { changes with Entrypoint := some d.value }
        (if changes.Entrypoint ≠ none then log ++ [warnEntrypoint] else log)
      refine ⟨w, ?_⟩
      rw [List.map_cons, parseChangesLoop_entrypoint d.text (some d.value) hacc, hw]
      simp only [lastOverride, hk]
      cases lastOverride DirectiveKind.cmd ds <;>
        cases lastOverride DirectiveKind.entrypoint ds <;> simp

/-- C4: on a list of directives each of which is the keyword `CMD` or
`ENTRYPOINT` followed, after white space as in `CMD ["a","b"]`, by a JSON array
of strings, `parseChanges` returns without
error, with the `CMD` override equal to the array of the last `CMD` directive
(unset if there is none) and the `Entrypoint` override equal to the array of the
last `ENTRYPOINT` directive (unset if there is none); each override is
determined by the directives of its own kind alone. -/
theorem parseChanges_well_formed (ds : List Directive) (h : ∀ d ∈ ds, d.WellFormed) :
    ∃ warnings, parseChanges (ds.map Directive.text) =
      GoResult.returned
        ⟨⟨lastOverride DirectiveKind.cmd ds, lastOverride DirectiveKind.entrypoint ds⟩,
         none, warnings⟩ := by
  obtain ⟨w, hw⟩ := parseChangesLoop_wellFormed ds h {} []
  refine ⟨w, ?_⟩
  rw [parseChanges, hw]
  cases lastOverride DirectiveKind.cmd ds <;>
    cases lastOverride DirectiveKind.entrypoint ds <;> rfl

/-- Witness for C4: `CMD ["a"]`, `ENTRYPOINT ["/bin/sh","-c"]`, `CMD ["b","c"]`
give the command override `["b","c"]` and the entrypoint override
`["/bin/sh","-c"]`. -/
theorem parseChanges_well_formed_witness :
    ∃ warnings,
      parseChanges [str "CMD [\"a\"]", str "ENTRYPOINT [\"/bin/sh\",\"-c\"]",
        str "CMD [\"b\",\"c\"]"] =
      GoResult.returned
        ⟨⟨some [str "b", str "c"], some [str "/bin/sh", str "-c"]⟩, none, warnings⟩ :=
  parseChanges_well_formed
    [⟨DirectiveKind.cmd, [str "a"], str "CMD [\"a\"]"⟩,
     ⟨DirectiveKind.entrypoint, [str "/bin/sh", str "-c"],
      str "ENTRYPOINT [\"/bin/sh\",\"-c\"]"⟩,
     ⟨DirectiveKind.cmd, [str "b", str "c"], str "CMD [\"b\",\"c\"]"⟩]
    (by
      intro d hd
      simp only [List.mem_cons, List.mem_singleton, List.not_mem_nil, or_false] at hd
      rcases hd with rfl | rfl | rfl
      · exact ⟨0x20, str "[\"a\"]", rfl, rfl, rfl⟩
      · exact ⟨0x20, str "[\"/bin/sh\",\"-c\"]", rfl, rfl, rfl⟩
      · exact ⟨0x20, str "[\"b\",\"c\"]", rfl, rfl, rfl⟩)

/-- The loop stops with the unknown-directive error at the first directive
whose first token is no keyword, whatever `changes` holds by then and whatever
follows that directive. -/
theorem parseChangesLoop_unknown (pre : List GoString) (bad : GoString) (token : GoString)
    (hpre : ∀ c ∈ pre, ∃ k v, Accepted (DirectiveKind.keyword k) v c)
    (htok : (Fields bad).head? = some token)
    (hcmd : token ≠ commandDirective) (hep : token ≠ entrypointDirective)
    (changes : Changes) (log : List String) :
    ∃ warnings, ∀ post, parseChangesLoop (pre ++ bad :: post) changes log =
      GoResult.returned ⟨{}, some (Error.unknownDirective token), warnings⟩ := by
  induction pre generalizing changes log with
  | nil =>
    have hnil : (Fields []).head? = none := by decide
    have hne : bad ≠ [] := by
      intro h0
      rw [h0, hnil] at htok
      exact absurd htok (by simp)
    cases hF : Fields bad with
    | nil => rw [hF] at htok; simp at htok
    | cons field0 fs =>
      rw [hF] at htok
      simp only [List.head?_cons, Option.some.injEq] at htok
      subst htok
      refine ⟨log, fun post => ?_⟩
      rw [List.nil_append, parseChangesLoop, if_neg hne, hF]
      simp only [if_neg hcmd, if_neg hep]
  | cons c pre ih =>
    obtain ⟨k, v, hacc⟩ := hpre c (List.mem_cons_self _ _)
    have hrest : ∀ x ∈ pre, ∃ k v, Accepted (DirectiveKind.keyword k) v x :=
      fun x hx => hpre x (List.mem_cons_of_mem _ hx)
    cases k with
    | cmd =>
      obtain ⟨w, hw⟩ := ih hrest { changes with CMD := v }
        (if changes.CMD ≠ none then log ++ [warnCMD] else log)
      refine ⟨w, fun post => ?_⟩
      rw [List.cons_append, parseChangesLoop_cmd c v hacc]
      exact hw post
    | entrypoint =>
      obtain ⟨w, hw⟩ := ih hrest { changes with Entrypoint := v }
        (if changes.Entrypoint ≠ none then log ++ [warnEntrypoint] else log)
      refine ⟨w, fun post => ?_⟩
      rw [List.cons_append, parseChangesLoop_entrypoint c v hacc]
      exact hw post

/-- C5: when the first white-space-delimited token of some directive is neither
`CMD` nor `ENTRYPOINT` and every earlier directive is well-formed,
`parseChanges` returns the unknown-directive error naming that token together
with the empty change set, so the overrides of the earlier directives are
discarded; the directives after that one are not looked at, so the result is
the same whatever they are. -/
theorem parseChanges_unknown_directive (pre : List GoString) (bad : GoString)
    (post : List GoString) (token : GoString)
    (hpre : ∀ c ∈ pre, ∃ k v, Accepted (DirectiveKind.keyword k) v c)
    (htok : (Fields bad).head? = some token)
    (hcmd : token ≠ commandDirective) (hep : token ≠ entrypointDirective) :
    (∃ warnings, parseChanges (pre ++ bad :: post) =
      GoResult.returned ⟨{}, some (Error.unknownDirective token), warnings⟩)
    ∧ parseChanges (pre ++ bad :: post) = parseChanges (pre ++ [bad]) := by
  obtain ⟨w, hw⟩ := parseChangesLoop_unknown pre bad token hpre htok hcmd hep {} []
  exact ⟨⟨w, hw post⟩, by rw [parseChanges, parseChanges, hw post, hw []]⟩

/-- Witness for C5: after `CMD ["a"]`, the directive `FOO bar` stops the parse
with the unknown-directive error for `FOO` and the empty change set, and the
directive after it, which holds white space only, is never read. -/
theorem parseChanges_unknown_directive_witness :
    (∃ warnings, parseChanges [str "CMD [\"a\"]", str "FOO bar", str "  "] =
      GoResult.returned ⟨{}, some (Error.unknownDirective (str "FOO")), warnings⟩)
    ∧ parseChanges [str "CMD [\"a\"]", str "FOO bar", str "  "]
      = parseChanges [str "CMD [\"a\"]", str "FOO bar"] :=
  parseChanges_unknown_directive [str "CMD [\"a\"]"] (str "FOO bar") [str "  "] (str "FOO")
    (by
      intro c hc
      simp only [List.mem_singleton] at hc
      subst hc
      exact ⟨DirectiveKind.cmd, some [str "a"], 0x20, str "[\"a\"]", rfl, rfl, rfl⟩)
    (by rfl) (by decide) (by decide)

/-- C6 fails on the code: in ` CMD ["a"]` the first white-space-delimited token
is `CMD` and the text that follows that token, ` ["a"]`, is a JSON array of
strings, but `parseChanges` decodes the directive without its first three
bytes, `D ["a"]`, and returns the malformed-JSON error with the empty change
set. -/
theorem parseChanges_leading_space :
    (Fields (str " CMD [\"a\"]")).head? = some commandDirective
    ∧ jsonUnmarshalStrings (str " [\"a\"]") = Except.ok (some [str "a"])
    ∧ (str " CMD [\"a\"]").drop commandDirective.length = str "D [\"a\"]"
    ∧ parseChanges [str " CMD [\"a\"]"] =
      GoResult.returned ⟨{}, some (Error.malformedJSON (str " CMD [\"a\"]")), []⟩ :=
  ⟨by rfl, by rfl, by rfl, by rfl⟩

/-- C7 as stated fails: the remainder of `CMD null` is the JSON literal `null`,
which is not an array of strings, and `parseChanges` returns without error,
leaving the override unset; the remainder of `CMD [null]` holds an element that
is not a string, and `parseChanges` returns the override `[""]`. -/
theorem parseChanges_null_counterexample :
    (Fields (str "CMD null")).head? = some commandDirective
    ∧ jsonUnmarshalStrings (str " null") = Except.ok none
    ∧ parseChanges [str "CMD null"] = GoResult.returned ⟨{}, none, []⟩
    ∧ parseChanges [str "CMD [null]"] = GoResult.returned ⟨{ CMD := some [[]] }, none, []⟩ :=
  ⟨by rfl, by rfl, by rfl, by rfl⟩

/-- `parseChanges` on a single directive that starts with a keyword which is
also its first token: the outcome is decided by `json.Unmarshal` on the rest. -/
theorem parseChanges_single (k : DirectiveKind) (rest : GoString)
    (hf : (Fields (k.keyword ++ rest)).head? = some k.keyword) :
    parseChanges [k.keyword ++ rest] =
      match jsonUnmarshalStrings rest with
      | Except.error _ =>
        GoResult.returned ⟨{}, some (Error.malformedJSON (k.keyword ++ rest)), []⟩
      | Except.ok v => GoResult.returned ⟨singleOverride k v, none, []⟩ := by
  have hne : k.keyword ++ rest ≠ [] := by
    cases k <;> simp [DirectiveKind.keyword, commandDirective, entrypointDirective, str,
      encodeRune]
  have hdrop : (k.keyword ++ rest).drop k.keyword.length = rest := by simp
  cases hF : Fields (k.keyword ++ rest) with
  | nil => rw [hF] at hf; simp at hf
  | cons field0 fs =>
    rw [hF] at hf
    simp only [List.head?_cons, Option.some.injEq] at hf
    subst hf
    rw [parseChanges, parseChangesLoop, if_neg hne, hF]
    cases k with
    | cmd =>
      simp only [DirectiveKind.keyword, if_true] at hdrop ⊢
      rw [hdrop]
      cases jsonUnmarshalStrings rest <;> simp [parseChangesLoop, singleOverride]
    | entrypoint =>
      simp only [DirectiveKind.keyword, if_neg commandDirective_ne_entrypointDirective.symm,
        if_true] at hdrop ⊢
      rw [hdrop]
      cases jsonUnmarshalStrings rest <;> simp [parseChangesLoop, singleOverride]

/-- One turn of the loop on a directive that starts with a keyword which is
also its first token: the outcome is decided by `json.Unmarshal` on the rest,
and a rejection discards what `changes` held. -/
theorem parseChangesLoop_keyword (k : DirectiveKind) (rest : GoString)
    (hf : (Fields (k.keyword ++ rest)).head? = some k.keyword) (post : List GoString)
    (changes : Changes) (log : List String) :
    parseChangesLoop ((k.keyword ++ rest) :: post) changes log =
      match jsonUnmarshalStrings rest with
      | Except.error _ =>
        GoResult.returned ⟨{}, some (Error.malformedJSON (k.keyword ++ rest)), log⟩
      | Except.ok v =>
        match k with
        | DirectiveKind.cmd =>
          parseChangesLoop post { changes with CMD := v }
            (if changes.CMD ≠ none then log ++ [warnCMD] else log)
        | DirectiveKind.entrypoint =>
          parseChangesLoop post { changes with Entrypoint := v }
            (if changes.Entrypoint ≠ none then log ++ [warnEntrypoint] else log) := by
  have hne : k.keyword ++ rest ≠ [] := by
    cases k <;> simp [DirectiveKind.keyword, commandDirective, entrypointDirective, str,
      encodeRune]
  have hdrop : (k.keyword ++ rest).drop k.keyword.length = rest := by simp
  cases hF : Fields (k.keyword ++ rest) with
  | nil => rw [hF] at hf; simp at hf
  | cons field0 fs =>
    rw [hF] at hf
    simp only [List.head?_cons, Option.some.injEq] at hf
    subst hf
    rw [parseChangesLoop, if_neg hne, hF]
    cases k with
    | cmd =>
      simp only [DirectiveKind.keyword, if_true] at hdrop ⊢
      rw [hdrop]
    | entrypoint =>
      simp only [DirectiveKind.keyword, if_neg commandDirective_ne_entrypointDirective.symm,
        if_true] at hdrop ⊢
      rw [hdrop]

/-- After accepted directives, a directive that starts with a keyword and whose
rest `json.Unmarshal` rejects ends the loop with the malformed-JSON error and
the empty change set, whatever follows. -/
theorem parseChangesLoop_malformed (pre : List GoString) (k : DirectiveKind)
    (rest : GoString) (e : JSONError)
    (hpre : ∀ c ∈ pre, ∃ k v, Accepted (DirectiveKind.keyword k) v c)
    (hf : (Fields (k.keyword ++ rest)).head? = some k.keyword)
    (he : jsonUnmarshalStrings rest = Except.error e)
    (changes : Changes) (log : List String) :
    ∃ warnings, ∀ post, parseChangesLoop (pre ++ (k.keyword ++ rest) :: post) changes log =
      GoResult.returned ⟨{}, some (Error.malformedJSON (k.keyword ++ rest)), warnings⟩ := by
  induction pre generalizing changes log with
  | nil =>
    refine ⟨log, fun post => ?_⟩
    rw [List.nil_append, parseChangesLoop_keyword k rest hf, he]
  | cons c pre ih =>
    obtain ⟨k0, v, hacc⟩ := hpre c (List.mem_cons_self _ _)
    have hrest : ∀ x ∈ pre, ∃ k v, Accepted (DirectiveKind.keyword k) v x :=
      fun x hx => hpre x (List.mem_cons_of_mem _ hx)
    cases k0 with
    | cmd =>
      obtain ⟨w, hw⟩ := ih hrest { changes with CMD := v }
        (if changes.CMD ≠ none then log ++ [warnCMD] else log)
      refine ⟨w, fun post => ?_⟩
      rw [List.cons_append, parseChangesLoop_cmd c v hacc]
      exact hw post
    | entrypoint =>
      obtain ⟨w, hw⟩ := ih hrest { changes with Entrypoint := v }
        (if changes.Entrypoint ≠ none then log ++ [warnEntrypoint] else log)
      refine ⟨w, fun post => ?_⟩
      rw [List.cons_append, parseChangesLoop_entrypoint c v hacc]
      exact hw post

/-- After accepted directives, a last directive that starts with the keyword of
kind `k` and whose rest `json.Unmarshal` decodes into `v` makes the loop return
without error, with the override of kind `k` equal to `v`. -/
theorem parseChangesLoop_last_accepted (pre : List GoString) (k : DirectiveKind)
    (rest : GoString) (v : Option (List GoString))
    (hpre : ∀ c ∈ pre, ∃ k v, Accepted (DirectiveKind.keyword k) v c)
    (hf : (Fields (k.keyword ++ rest)).head? = some k.keyword)
    (hv : jsonUnmarshalStrings rest = Except.ok v)
    (changes : Changes) (log : List String) :
    ∃ out warnings, parseChangesLoop (pre ++ [k.keyword ++ rest]) changes log =
      GoResult.returned ⟨out, none, warnings⟩ ∧
      (k = DirectiveKind.cmd → out.CMD = v) ∧
      (k = DirectiveKind.entrypoint → out.Entrypoint = v) := by
  induction pre generalizing changes log with
  | nil =>
    cases k with
    | cmd =>
      refine ⟨{ changes with CMD := v },
        (if changes.CMD ≠ none then log ++ [warnCMD] else log), ?_, fun _ => rfl,
        fun h => DirectiveKind.noConfusion h⟩
      rw [List.nil_append, parseChangesLoop_keyword DirectiveKind.cmd rest hf, hv]
      rfl
    | entrypoint =>
      refine ⟨{ changes with Entrypoint := v },
        (if changes.Entrypoint ≠ none then log ++ [warnEntrypoint] else log), ?_,
        fun h => DirectiveKind.noConfusion h, fun _ => rfl⟩
      rw [List.nil_append, parseChangesLoop_keyword DirectiveKind.entrypoint rest hf, hv]
      rfl
  | cons c pre ih =>
    obtain ⟨k0, v0, hacc⟩ := hpre c (List.mem_cons_self _ _)
    have hrest : ∀ x ∈ pre, ∃ k v, Accepted (DirectiveKind.keyword k) v x :=
      fun x hx => hpre x (List.mem_cons_of_mem _ hx)
    cases k0 with
    | cmd =>
      obtain ⟨out, w, hw, h1, h2⟩ := ih hrest { changes with CMD := v0 }
        (if changes.CMD ≠ none then log ++ [warnCMD] else log)
      refine ⟨out, w, ?_, h1, h2⟩
      rw [List.cons_append, parseChangesLoop_cmd c v0 hacc]
      exact hw
    | entrypoint =>
      obtain ⟨out, w, hw, h1, h2⟩ := ih hrest { changes with Entrypoint := v0 }
        (if changes.Entrypoint ≠ none then log ++ [warnEntrypoint] else log)
      refine ⟨out, w, ?_, h1, h2⟩
      rw [List.cons_append, parseChangesLoop_entrypoint c v0 hacc]
      exact hw

/-- C7, amended: take a directive that starts with the keyword `CMD` or
`ENTRYPOINT` as its first white-space-delimited token, after any number of
accepted directives. If `json.Unmarshal` rejects the rest of the directive,
`parseChanges` fails with the malformed-JSON error for that directive and
returns the empty change set, so the overrides of the earlier directives are
discarded, whatever follows the directive. If `json.Unmarshal` accepts the
rest, that directive raises no error: as the last directive it makes
`parseChanges` return without error with the override of its kind equal to what
`json.Unmarshal` decoded, and as the only directive with the other override
unset. `json.Unmarshal` rejects the empty text, a JSON string, number or object,
an array with an element that is neither a string nor `null`, and text that is
not JSON; it accepts a JSON array of strings, the literal `null` (the override
stays unset) and an array element `null` (decoded as the empty string). -/
theorem parseChanges_malformed_value (k : DirectiveKind) (rest : GoString)
    (hf : (Fields (k.keyword ++ rest)).head? = some k.keyword) :
    (∀ e, jsonUnmarshalStrings rest = Except.error e →
      parseChanges [k.keyword ++ rest] =
        GoResult.returned ⟨{}, some (Error.malformedJSON (k.keyword ++ rest)), []⟩)
    ∧ (∀ v, jsonUnmarshalStrings rest = Except.ok v →
      parseChanges [k.keyword ++ rest] = GoResult.returned ⟨singleOverride k v, none, []⟩)
    ∧ (∀ pre post e, (∀ c ∈ pre, ∃ k v, Accepted (DirectiveKind.keyword k) v c) →
      jsonUnmarshalStrings rest = Except.error e →
      ∃ warnings, parseChanges (pre ++ (k.keyword ++ rest) :: post) =
        GoResult.returned
          ⟨{ CMD := none, Entrypoint := none },
            some (Error.malformedJSON (k.keyword ++ rest)), warnings⟩)
    ∧ (∀ pre v, (∀ c ∈ pre, ∃ k v, Accepted (DirectiveKind.keyword k) v c) →
      jsonUnmarshalStrings rest = Except.ok v →
      ∃ out warnings, parseChanges (pre ++ [k.keyword ++ rest]) =
        GoResult.returned ⟨out, none, warnings⟩ ∧
        (k = DirectiveKind.cmd → out.CMD = v) ∧
        (k = DirectiveKind.entrypoint → out.Entrypoint = v))
    ∧ jsonUnmarshalStrings [] = Except.error JSONError.SyntaxError
    ∧ jsonUnmarshalStrings (str " ") = Except.error JSONError.SyntaxError
    ∧ jsonUnmarshalStrings (str " \"a\"") = Except.error JSONError.UnmarshalTypeError
    ∧ jsonUnmarshalStrings (str " 12") = Except.error JSONError.UnmarshalTypeError
    ∧ jsonUnmarshalStrings (str " \x7b\"a\": [\"b\"]\x7d")
        = Except.error JSONError.UnmarshalTypeError
    ∧ jsonUnmarshalStrings (str " [\"a\", 1]") = Except.error JSONError.UnmarshalTypeError
    ∧ jsonUnmarshalStrings (str " [[\"a\"]]") = Except.error JSONError.UnmarshalTypeError
    ∧ jsonUnmarshalStrings (str " [\"a\",]") = Except.error JSONError.SyntaxError
    ∧ jsonUnmarshalStrings (str " echo hello") = Except.error JSONError.SyntaxError
    ∧ jsonUnmarshalStrings (str " [\"a\",\"b\"]") = Except.ok (some [str "a", str "b"])
    ∧ jsonUnmarshalStrings (str " []") = Except.ok (some [])
    ∧ jsonUnmarshalStrings (str " null") = Except.ok none
    ∧ jsonUnmarshalStrings (str " [\"a\", null]") = Except.ok (some [str "a", []]) := by
  have h := parseChanges_single k rest hf
  refine ⟨?_, ?_, ?_, ?_, by rfl, by rfl, by rfl, by rfl, by rfl, by rfl, by rfl, by rfl, by rfl,
    by rfl, by rfl, by rfl, by rfl⟩
  · intro e he
    rw [h, he]
  · intro v hv
    rw [h, hv]
  · intro pre post e hpre he
    obtain ⟨w, hw⟩ := parseChangesLoop_malformed pre k rest e hpre hf he {} []
    exact ⟨w, hw post⟩
  · intro pre v hpre hv
    exact parseChangesLoop_last_accepted pre k rest v hpre hf hv {} []

/-- Witness for the amended C7: after `CMD ["a"]` has set the command override,
`CMD 12` fails with the malformed-JSON error and the empty change set, and the
white-space-only directive after it is never read; `CMD 12` alone fails the same
way; `ENTRYPOINT ["sh"]` sets the entrypoint override. -/
theorem parseChanges_malformed_value_witness :
    parseChanges [str "CMD [\"a\"]"]
      = GoResult.returned ⟨{ CMD := some [str "a"] }, none, []⟩
    ∧ (∃ warnings, parseChanges [str "CMD [\"a\"]", str "CMD 12", str "  "] =
      GoResult.returned
        ⟨{ CMD := none, Entrypoint := none }, some (Error.malformedJSON (str "CMD 12")),
          warnings⟩)
    ∧ parseChanges [str "CMD 12"] =
      GoResult.returned ⟨{}, some (Error.malformedJSON (str "CMD 12")), []⟩
    ∧ parseChanges [str "ENTRYPOINT [\"sh\"]"] =
      GoResult.returned ⟨{ Entrypoint := some [str "sh"] }, none, []⟩ :=
  ⟨by rfl,
   (parseChanges_malformed_value DirectiveKind.cmd (str " 12") (by rfl)).2.2.1
      [str "CMD [\"a\"]"] [str "  "] JSONError.UnmarshalTypeError
      (by
        intro c hc
        simp only [List.mem_singleton] at hc
        subst hc
        exact ⟨DirectiveKind.cmd, some [str "a"], 0x20, str "[\"a\"]", rfl, rfl, rfl⟩)
      (by rfl),
   (parseChanges_malformed_value DirectiveKind.cmd (str " 12") (by rfl)).1
      JSONError.UnmarshalTypeError (by rfl),
   (parseChanges_malformed_value DirectiveKind.entrypoint (str " [\"sh\"]") (by rfl)).2.1
      (some [str "sh"]) (by rfl)⟩

end ParseChanges

section CommitClaims
variable {σ : Type}

/-- The walk of `Commit` over no match, one match, or several. -/
theorem Walk_commitOnFound (env : CommitEnv σ) (opts : Opts) (ctx : Context)
    (req : GoString) (s : σ) :
    (∃ e s1, env.Containers ctx req s = (Except.error e, s1) ∧
      Walk env (commitOnFound env opts) ctx req (start s) =
        ((-1, some e), ⟨s1, [Event.containers ctx req (Except.error e)]⟩)) ∨
    (∃ s1, env.Containers ctx req s = (Except.ok [], s1) ∧
      Walk env (commitOnFound env opts) ctx req (start s) =
        ((0, none), ⟨s1, [Event.containers ctx req (Except.ok [])]⟩)) ∨
    (∃ c1 c2 cs s1, env.Containers ctx req s = (Except.ok (c1 :: c2 :: cs), s1) ∧
      Walk env (commitOnFound env opts) ctx req (start s) =
        ((-1, some (Error.multipleIDs req)),
          ⟨s1, [Event.containers ctx req (Except.ok (c1 :: c2 :: cs))]⟩)) ∨
    (∃ c s1 e s2, env.Containers ctx req s = (Except.ok [c], s1) ∧
      env.Commit ctx c opts s1 = (Except.error e, s2) ∧
      Walk env (commitOnFound env opts) ctx req (start s) =
        ((-1, some e), ⟨s2, [Event.containers ctx req (Except.ok [c]),
          Event.commit ctx c opts (Except.error e)]⟩)) ∨
    (∃ c s1 imageID s2 we s3, env.Containers ctx req s = (Except.ok [c], s1) ∧
      env.Commit ctx c opts s1 = (Except.ok imageID, s2) ∧
      env.Stdout (imageID ++ [0x0A]) s2 = (we, s3) ∧
      Walk env (commitOnFound env opts) ctx req (start s) =
        ((if we = none then 1 else -1, we), ⟨s3, [Event.containers ctx req (Except.ok [c]),
          Event.commit ctx c opts (Except.ok imageID),
          Event.write (imageID ++ [0x0A]) we]⟩)) := by
  rcases h : env.Containers ctx req s with ⟨r, s1⟩
  cases r with
  | error e =>
    left
    exact ⟨e, s1, rfl, by simp [Walk, callContainers, start, h]⟩
  | ok cs =>
    right
    match cs with
    | [] =>
      left
      exact ⟨s1, rfl, by simp [Walk, callContainers, start, h, walkLoop]⟩
    | c1 :: c2 :: cs =>
      right; left
      exact ⟨c1, c2, cs, s1, rfl,
        by simp [Walk, callContainers, start, h, walkLoop, commitOnFound]⟩
    | [c] =>
      right; right
      rcases hc : env.Commit ctx c opts s1 with ⟨rc, s2⟩
      cases rc with
      | error e =>
        left
        exact ⟨c, s1, e, s2, rfl, hc,
          by simp [Walk, callContainers, start, h, walkLoop, commitOnFound, callCommit, hc]⟩
      | ok imageID =>
        right
        rcases hw : env.Stdout (imageID ++ [0x0A]) s2 with ⟨we, s3⟩
        refine ⟨c, s1, imageID, s2, we, s3, rfl, hc, hw, ?_⟩
        cases we <;>
          simp [Walk, callContainers, start, h, walkLoop, commitOnFound, callCommit, hc,
            callWrite, hw]

/-- C8: in every run of `Commit` in which the reference and the change
directives parse and the reference resolves to a number of containers other
than one, `Commit` returns an error, the commit procedure is never called and
nothing is written to the output stream: the multiple-IDs error for more than
one match, the no-such-container error for none. In every run of `Commit`, a
write to the output stream comes right after a call of the commit procedure
that returned without error, and writes the image identifier it returned. -/
theorem Commit_refuses_unless_one_match (env : CommitEnv σ) (ctx : Context)
    (rawRef req : GoString) (options : ContainerCommitOptions) (s : σ) :
    (∀ ref changes log cs s1,
      env.Parse rawRef = Except.ok ref →
      parseChanges options.Change = GoResult.returned ⟨changes, none, log⟩ →
      env.Containers ctx req s = (Except.ok cs, s1) →
      cs.length ≠ 1 →
      (1 < cs.length → (Commit env ctx rawRef req options (start s)).1
        = GoResult.returned (some (Error.multipleIDs req)))
      ∧ (cs.length = 0 → (Commit env ctx rawRef req options (start s)).1
        = GoResult.returned (some (Error.noSuchContainer req)))
      ∧ (∃ err, (Commit env ctx rawRef req options (start s)).1
        = GoResult.returned (some err))
      ∧ (∀ e ∈ (Commit env ctx rawRef req options (start s)).2.trace,
        e.isCommit = false ∧ e.isWrite = false))
    ∧ writesFollowCommit (Commit env ctx rawRef req options (start s)).2.trace = true := by
  constructor
  · intro ref changes log cs s1 href hch hres hn
    rcases Walk_commitOnFound env
      { Author := options.Author
        Message := options.Message
        Ref := ref
        Pause := options.Pause
        Changes := changes
        Compression := options.Compression
        Format := options.Format
        EstargzOptions := options.EstargzOptions
        ZstdChunkedOptions := options.ZstdChunkedOptions
        DevboxOptions := options.DevboxOptions } ctx req s with
      ⟨e, t1, h, _⟩ | ⟨t1, h, hw⟩ | ⟨c1, c2, cs', t1, h, hw⟩ | ⟨c, t1, e, t2, h, _, _⟩ |
      ⟨c, t1, i, t2, we, t3, h, _, _, _⟩
    · rw [hres] at h; simp at h
    · rw [hres] at h
      obtain ⟨hcs, _⟩ := Prod.mk.inj h
      have hcs' : cs = [] := by injection hcs
      subst hcs'
      simp [Commit, href, hch, hw, Event.isCommit, Event.isWrite]
    · rw [hres] at h
      obtain ⟨hcs, _⟩ := Prod.mk.inj h
      have hcs' : cs = c1 :: c2 :: cs' := by injection hcs
      subst hcs'
      simp [Commit, href, hch, hw, Event.isCommit, Event.isWrite]
    · rw [hres] at h
      obtain ⟨hcs, _⟩ := Prod.mk.inj h
      have hcs' : cs = [c] := by injection hcs
      subst hcs'
      simp at hn
    · rw [hres] at h
      obtain ⟨hcs, _⟩ := Prod.mk.inj h
      have hcs' : cs = [c] := by injection hcs
      subst hcs'
      simp at hn
  · cases href : env.Parse rawRef with
    | error e => simp [Commit, href, start, writesFollowCommit]
    | ok ref =>
      cases hch : parseChanges options.Change with
      | panicked msg => simp [Commit, href, hch, start, writesFollowCommit]
      | returned parsed =>
        obtain ⟨changes, perr, log⟩ := parsed
        cases perr with
        | some e => simp [Commit, href, hch, start, writesFollowCommit]
        | none =>
          rcases Walk_commitOnFound env
            { Author := options.Author
              Message := options.Message
              Ref := ref
              Pause := options.Pause
              Changes := changes
              Compression := options.Compression
              Format := options.Format
              EstargzOptions := options.EstargzOptions
              ZstdChunkedOptions := options.ZstdChunkedOptions
              DevboxOptions := options.DevboxOptions } ctx req s with
            ⟨e, t1, _, hw⟩ | ⟨t1, _, hw⟩ | ⟨c1, c2, cs', t1, _, hw⟩ | ⟨c, t1, e, t2, _, _, hw⟩ |
            ⟨c, t1, i, t2, we, t3, _, _, _, hw⟩
          · simp [Commit, href, hch, hw, writesFollowCommit]
          · simp [Commit, href, hch, hw, writesFollowCommit]
          · simp [Commit, href, hch, hw, writesFollowCommit]
          · simp [Commit, href, hch, hw, writesFollowCommit]
          · cases we <;> simp [Commit, href, hch, hw, writesFollowCommit]

/-- Witness for C8 in the sample environment: the prefix `abc` matches two
containers and is refused with the multiple-IDs error, the prefix `q` matches
none and gives the no-such-container error, and in both runs neither the commit
procedure nor the output stream is touched. -/
theorem Commit_refuses_unless_one_match_witness :
    (Commit memCommitEnv cancelledCtx (str "img:v1") (str "abc") sampleCommitOptions
        (start [])).1 = GoResult.returned (some (Error.multipleIDs (str "abc")))
    ∧ (Commit memCommitEnv cancelledCtx (str "img:v1") (str "q") sampleCommitOptions
        (start [])).1 = GoResult.returned (some (Error.noSuchContainer (str "q")))
    ∧ (∀ e ∈ (Commit memCommitEnv cancelledCtx (str "img:v1") (str "abc") sampleCommitOptions
        (start [])).2.trace, e.isCommit = false ∧ e.isWrite = false) :=
  ⟨((Commit_refuses_unless_one_match memCommitEnv cancelledCtx (str "img:v1") (str "abc")
      sampleCommitOptions []).1 (str "img:v1") { CMD := some [str "a"] } []
      [str "abc1", str "abc2"] [] (by rfl) (by rfl) (by rfl) (by decide)).1 (by decide),
   ((Commit_refuses_unless_one_match memCommitEnv cancelledCtx (str "img:v1") (str "q")
      sampleCommitOptions []).1 (str "img:v1") { CMD := some [str "a"] } []
      [] [] (by rfl) (by rfl) (by rfl) (by decide)).2.1 (by decide),
   ((Commit_refuses_unless_one_match memCommitEnv cancelledCtx (str "img:v1") (str "abc")
      sampleCommitOptions []).1 (str "img:v1") { CMD := some [str "a"] } []
      [str "abc1", str "abc2"] [] (by rfl) (by rfl) (by rfl) (by decide)).2.2.2⟩

end CommitClaims

section UpdateClaims
variable {σ : Type}

theorem mapGet_mapSet (m : GoMap) (k v key : GoString) :
    mapGet (mapSet m k v) key = if k = key then some v else mapGet m key := by
  induction m with
  | nil => simp [mapSet, mapGet]
  | cons e rest ih =>
    obtain ⟨k0, v0⟩ := e
    by_cases h0 : k0 = k
    · subst h0
      by_cases h1 : k0 = key <;> simp [mapSet, mapGet, h1]
    · by_cases h1 : k0 = key
      · subst h1
        have : ¬ k = k0 := fun h => h0 h.symm
        simp [mapSet, mapGet, h0, this]
      · simp [mapSet, mapGet, h0, h1, ih]

theorem mapGet_append (a b : GoMap) (key : GoString) :
    mapGet (a ++ b) key = (mapGet a key).orElse fun _ => mapGet b key := by
  induction a with
  | nil => simp [mapGet]
  | cons e rest ih =>
    obtain ⟨k0, v0⟩ := e
    by_cases h : k0 = key <;> simp [mapGet, h, ih]

/-- Storing the entries of `l` one after the other into `base`: a key reads as
its last entry in `l`, or as in `base`. -/
theorem mapGet_foldl_mapSet (l base : GoMap) (key : GoString) :
    mapGet (l.foldl (fun m kv => mapSet m kv.1 kv.2) base) key =
      (mapGet l.reverse key).orElse fun _ => mapGet base key := by
  induction l generalizing base with
  | nil => simp [mapGet]
  | cons e rest ih =>
    obtain ⟨k0, v0⟩ := e
    rw [List.foldl_cons, ih, List.reverse_cons, mapGet_append, mapGet_mapSet]
    cases mapGet rest.reverse key with
    | some x => simp
    | none =>
      by_cases h : k0 = key <;> simp [mapGet, h]

theorem mapGet_eq_some_iff (m : GoMap) (hm : (m.map Prod.fst).Nodup) (key v : GoString) :
    mapGet m key = some v ↔ (key, v) ∈ m := by
  induction m with
  | nil => simp [mapGet]
  | cons e rest ih =>
    obtain ⟨k0, v0⟩ := e
    simp only [List.map_cons, List.nodup_cons] at hm
    by_cases h : k0 = key
    · subst h
      simp only [mapGet, if_true, Option.some.injEq, List.mem_cons, Prod.mk.injEq, true_and]
      constructor
      · intro hv; exact Or.inl hv.symm
      · rintro (hv | hmem)
        · exact hv.symm
        · exact absurd (List.mem_map_of_mem Prod.fst hmem) hm.1
    · simp only [mapGet, if_neg h, List.mem_cons, Prod.mk.injEq]
      rw [ih hm.2]
      constructor
      · intro hmem; exact Or.inr hmem
      · rintro (⟨hk, _⟩ | hmem)
        · exact absurd hk.symm h
        · exact hmem

/-- Two maps with distinct keys and the same entries read the same. -/
theorem mapGet_of_perm (a b : GoMap) (ha : (a.map Prod.fst).Nodup) (hab : a.Perm b)
    (key : GoString) : mapGet a key = mapGet b key := by
  have hb : (b.map Prod.fst).Nodup := (hab.map Prod.fst).nodup_iff.1 ha
  cases hg : mapGet b key with
  | some v =>
    rw [mapGet_eq_some_iff a ha]
    exact hab.mem_iff.2 ((mapGet_eq_some_iff b hb key v).1 hg)
  | none =>
    cases hg' : mapGet a key with
    | none => rfl
    | some v =>
      have := (mapGet_eq_some_iff b hb key v).2
        (hab.mem_iff.1 ((mapGet_eq_some_iff a ha key v).1 hg'))
      rw [hg] at this
      exact absurd this (by simp)

theorem keys_mapSet (m : GoMap) (k v : GoString) :
    (mapSet m k v).map Prod.fst =
      if k ∈ m.map Prod.fst then m.map Prod.fst else m.map Prod.fst ++ [k] := by
  induction m with
  | nil => simp [mapSet]
  | cons e rest ih =>
    obtain ⟨k0, v0⟩ := e
    by_cases h0 : k0 = k
    · subst h0
      simp [mapSet]
    · have h0' : ¬ k = k0 := fun h => h0 h.symm
      simp only [mapSet, if_neg h0, List.map_cons, ih, List.mem_cons, h0', false_or]
      split <;> simp

theorem nodup_keys_mapSet (m : GoMap) (k v : GoString) (hm : (m.map Prod.fst).Nodup) :
    ((mapSet m k v).map Prod.fst).Nodup := by
  rw [keys_mapSet]
  split
  · exact hm
  · rename_i h
    rw [List.nodup_append]
    exact ⟨hm, List.nodup_singleton _, by
      intro x hx hx'
      simp only [List.mem_singleton] at hx'
      subst hx'
      exact h hx⟩

theorem splitFirstEq_of_mem (s acc : GoString) (h : 0x3D ∈ s) :
    splitFirstEq s acc = [acc ++ labelKey s, labelValue s] := by
  induction s generalizing acc with
  | nil => simp at h
  | cons c rest ih =>
    by_cases hc : c = 0x3D
    · subst hc
      simp [splitFirstEq, labelKey, labelValue, List.takeWhile, List.dropWhile]
    · have hr : 0x3D ∈ rest := by
        rcases List.mem_cons.1 h with h1 | h1
        · exact absurd h1.symm hc
        · exact h1
      rw [splitFirstEq, if_neg hc, ih _ hr]
      simp [labelKey, labelValue, List.takeWhile, List.dropWhile, hc]

theorem splitFirstEq_of_not_mem (s acc : GoString) (h : 0x3D ∉ s) :
    splitFirstEq s acc = [acc ++ s] := by
  induction s generalizing acc with
  | nil => simp [splitFirstEq]
  | cons c rest ih =>
    have hc : c ≠ 0x3D := fun hc => h (by simp [hc])
    have hr : 0x3D ∉ rest := fun hr => h (List.mem_cons_of_mem _ hr)
    rw [splitFirstEq, if_neg hc, ih _ hr]
    simp

/-- The label loop on arguments that all hold an `=`. -/
theorem parseLabelArgs_ok (labelArgs : List GoString) (h : ∀ a ∈ labelArgs, 0x3D ∈ a)
    (labels : GoMap) (hl : (labels.map Prod.fst).Nodup) :
    ∃ out, parseLabelArgs labelArgs labels = Except.ok out ∧ (out.map Prod.fst).Nodup ∧
      ∀ key, mapGet out key = (lastLabel key labelArgs).orElse fun _ => mapGet labels key := by
  induction labelArgs generalizing labels with
  | nil => exact ⟨labels, rfl, hl, fun key => by simp [lastLabel]⟩
  | cons a rest ih =>
    have ha : 0x3D ∈ a := h a (List.mem_cons_self _ _)
    obtain ⟨out, ho, hn, hg⟩ := ih (fun x hx => h x (List.mem_cons_of_mem _ hx))
      (mapSet labels (labelKey a) (labelValue a)) (nodup_keys_mapSet _ _ _ hl)
    refine ⟨out, ?_, hn, fun key => ?_⟩
    · have hs : SplitN2 a = [labelKey a, labelValue a] := by
        rw [SplitN2, splitFirstEq_of_mem a [] ha]; simp
      rw [parseLabelArgs, hs]
      exact ho
    · rw [hg key, mapGet_mapSet]
      simp only [lastLabel]
      cases lastLabel key rest with
      | some x => simp
      | none => by_cases hk : labelKey a = key <;> simp [hk]

/-- The label loop stops at the first argument without `=`. -/
theorem parseLabelArgs_error (pre : List GoString) (bad : GoString) (post : List GoString)
    (hpre : ∀ a ∈ pre, 0x3D ∈ a) (hbad : 0x3D ∉ bad) (labels : GoMap) :
    parseLabelArgs (pre ++ bad :: post) labels = Except.error (Error.invalidLabelFormat bad) := by
  induction pre generalizing labels with
  | nil =>
    have hs : SplitN2 bad = [bad] := by
      rw [SplitN2, splitFirstEq_of_not_mem bad [] hbad]; simp
    rw [List.nil_append, parseLabelArgs, hs]
  | cons a rest ih =>
    have ha : 0x3D ∈ a := hpre a (List.mem_cons_self _ _)
    have hs : SplitN2 a = [labelKey a, labelValue a] := by
      rw [SplitN2, splitFirstEq_of_mem a [] ha]; simp
    rw [List.cons_append, parseLabelArgs, hs]
    exact ih (fun x hx => hpre x (List.mem_cons_of_mem _ hx)) _

/-- C10: let the `range` over the new labels visit them in any order. If every
label argument holds an `=` and `Stat` succeeds, the one `Update` call that is
sent carries the snapshot's info with a label map in which every key named by
an argument has the value of the last argument naming it (the text after the
first `=` of that argument, the key being the text before it) and every other
key reads as in the existing map. If some argument holds no `=`, `Update`
returns the invalid-label-format error for the first such argument and calls
nothing: the trace stays empty and the world is unchanged. -/
theorem Update_merges_labels (ctx : Context) (client : GoString → Snapshotter σ)
    (snapshotID : GoString) (labelArgs : List GoString) (options : SnapshotUpdateOptions σ)
    (rangeOrder : GoMap → GoMap) (s : σ) (hperm : ∀ m, (rangeOrder m).Perm m) :
    (∀ info s1, (∀ a ∈ labelArgs, 0x3D ∈ a) →
      (client (snapshotterNameOf options.Snapshotter)).Stat ctx snapshotID s
        = (Except.ok info, s1) →
      ∃ labels,
        updateCalls (Update ctx client snapshotID labelArgs options rangeOrder (start s)).2.trace
          = [{ info with Labels := some labels }]
        ∧ ∀ key, mapGet labels key =
            (lastLabel key labelArgs).orElse fun _ => mapGet (info.Labels.getD []) key)
    ∧ (∀ pre bad post, labelArgs = pre ++ bad :: post → (∀ a ∈ pre, 0x3D ∈ a) → 0x3D ∉ bad →
      Update ctx client snapshotID labelArgs options rangeOrder (start s)
        = (some (Error.invalidLabelFormat bad), start s)) := by
  constructor
  · intro info s1 hall hstat
    obtain ⟨labels, hp, hn, hg⟩ := parseLabelArgs_ok labelArgs hall [] (by simp)
    refine ⟨(rangeOrder labels).foldl (fun m kv => mapSet m kv.1 kv.2) (info.Labels.getD []),
      ?_, fun key => ?_⟩
    · rcases hu : (client (snapshotterNameOf options.Snapshotter)).Update ctx
          { info with Labels := some ((rangeOrder labels).foldl
            (fun m kv => mapSet m kv.1 kv.2) (info.Labels.getD [])) }
          [str "labels"] s1 with ⟨ru, s2⟩
      cases ru with
      | error e => simp [Update, hp, callStat, callUpdate, start, hstat, hu, updateCalls]
      | ok i2 =>
        simp [Update, hp, callStat, callUpdate, callWrite, start, hstat, hu, updateCalls]
    · rw [mapGet_foldl_mapSet]
      have hrev : mapGet (rangeOrder labels).reverse key = mapGet labels key :=
        (mapGet_of_perm labels (rangeOrder labels).reverse hn
          ((hperm labels).symm.trans (List.reverse_perm _).symm) key).symm
      rw [hrev, hg key]
      cases lastLabel key labelArgs <;> simp [mapGet]
  · intro pre bad post hsplit hpre hbad
    have he := parseLabelArgs_error pre bad post hpre hbad []
    rw [← hsplit] at he
    simp [Update, he]

/-- Witness for C10 on the in-memory service, whose snapshot `snap` has the
labels `a=1` and `b=2`, with a `range` that visits the new labels last to
first: the arguments `b=x=y`, `c=3`, `b=z` send the labels `a=1`, `b=z`, `c=3`,
and the arguments `b=x=y`, `c`, `b=z` are refused at `c` before any call. -/
theorem Update_merges_labels_witness :
    (∃ labels,
      updateCalls (Update cancelledCtx (fun _ => memSnapshotter) (str "snap")
        [str "b=x=y", str "c=3", str "b=z"] sampleUpdateOptions List.reverse
        (start labelledSnapshots)).2.trace
        = [{ Kind := Kind.KindCommitted, Name := str "snap", Parent := [],
             Labels := some labels }]
      ∧ ∀ key, mapGet labels key =
          (lastLabel key [str "b=x=y", str "c=3", str "b=z"]).orElse fun _ =>
            mapGet [(str "a", str "1"), (str "b", str "2")] key)
    ∧ Update cancelledCtx (fun _ => memSnapshotter) (str "snap")
        [str "b=x=y", str "c", str "b=z"] sampleUpdateOptions List.reverse
        (start labelledSnapshots)
      = (some (Error.invalidLabelFormat (str "c")), start labelledSnapshots) :=
  ⟨(Update_merges_labels cancelledCtx (fun _ => memSnapshotter) (str "snap")
      [str "b=x=y", str "c=3", str "b=z"] sampleUpdateOptions List.reverse labelledSnapshots
      (fun m => List.reverse_perm m)).1
      { Kind := Kind.KindCommitted, Name := str "snap", Parent := [],
        Labels := some [(str "a", str "1"), (str "b", str "2")] }
      labelledSnapshots (by decide) (by rfl),
   (Update_merges_labels cancelledCtx (fun _ => memSnapshotter) (str "snap")
      [str "b=x=y", str "c", str "b=z"] sampleUpdateOptions List.reverse labelledSnapshots
      (fun m => List.reverse_perm m)).2
      [str "b=x=y"] (str "c") [str "b=z"] (by rfl) (by decide) (by decide)⟩

end UpdateClaims

section Totality

/-- The ASCII path of `strings.Fields` finds no field in a run of spaces. -/
theorem fieldsASCII_spaces (n : Nat) : fieldsASCII (List.replicate n 0x20) none = [] := by
  induction n with
  | zero => rfl
  | succ k ih => simp [List.replicate_succ, fieldsASCII, asciiSpace, flushField, ih]

/-- `strings.Fields` finds no token in a string of spaces only. -/
theorem Fields_spaces (n : Nat) : Fields (List.replicate n 0x20) = [] := by
  have hall : (List.replicate n 0x20).all (fun c => decide (c < 0x80)) = true := by
    simp [List.all_eq_true]
  rw [Fields, if_pos hall, fieldsASCII_spaces]

/-- C11 fails on the code: a directive of one or more spaces is not the empty
string, so the test of line 93 lets it pass; `strings.Fields` finds no token in
it; and `changeFields[0]` at line 98 is out of range, so `parseChanges` panics
and returns neither a change set nor an error. The same happens for a tab, and
for such a directive that comes after a well-formed one. -/
theorem parseChanges_whitespace_only_panics :
    str "  " ≠ []
    ∧ Fields (str "  ") = []
    ∧ parseChanges [str "  "]
      = GoResult.panicked "runtime error: index out of range [0] with length 0"
    ∧ parseChanges [str "\t"]
      = GoResult.panicked "runtime error: index out of range [0] with length 0"
    ∧ parseChanges [str "CMD [\"a\"]", str " "]
      = GoResult.panicked "runtime error: index out of range [0] with length 0"
    ∧ (∀ n rest, parseChanges (List.replicate (n + 1) 0x20 :: rest)
      = GoResult.panicked "runtime error: index out of range [0] with length 0")
    ∧ ¬ ∃ parsed, parseChanges [str "  "] = GoResult.returned parsed := by
  refine ⟨by decide, by rfl, by rfl, by rfl, by rfl, ?_, ?_⟩
  · intro n rest
    have hne : List.replicate (n + 1) 0x20 ≠ [] := by simp [List.replicate_succ]
    rw [parseChanges, parseChangesLoop, if_neg hne, Fields_spaces]
  · rintro ⟨parsed, h⟩
    have hp : parseChanges [str "  "]
        = GoResult.panicked "runtime error: index out of range [0] with length 0" := by rfl
    rw [hp] at h
    exact GoResult.noConfusion h

end Totality

end Nerdctl
